import Mathlib

/-!
Verification of the request-processing logic of `podcastfy-app/app.py`.

The handler `process_inputs` is embedded shallowly: its pure input
normalisation steps (mock-mode parsing, voice-pair parsing, URL splitting,
API-key precedence) become Lean functions, and its effectful sequence
(environment checks, temp-file materialisation, generation calls, output
relocation, Slack/callback notification, cleanup, and the top-level
exception handler) becomes a computation in a state-plus-exception monad
over an explicit program state.  The state records the set of paths on
disk, a trace of externally visible events, and—crucially for the
exception handler—which Python local variables have been assigned so far,
since the except block of `process_inputs` reads `requestId`, `mock_flag`,
`SLACK_BOT_TOKEN` and `temp_files`, all of which are ordinary locals that
may still be unbound when an early exception reaches the handler.

External effects whose outcomes the script cannot control (file writes,
renames, `generate_podcast` results, Slack HTTP steps, callback delivery)
are resolved by an explicit oracle, so theorems quantify over every
possible behaviour of the outside world.  Logging calls, the contents of
generated files, and the exact JSON texts sent over the network are
abstracted away: no claim depends on them.  `os.path.abspath` is modelled
as the identity on paths.
-/

namespace PodcastfyApp

/-- The value `process_inputs` hands back to its caller: Python `None`
or a string (an audio path on success, `str(e)` on a handled error). -/
inductive PyRet
  | pyNone
  | pyStr (s : String)
deriving DecidableEq, Repr

/-- The mock-mode enum resolved from the free-text `is_mock` field
(lines 162-176 of app.py). -/
inductive MockMode
  | No
  | Yes
  | Transcript
  | Transcript2Voice
  | PromptOnly
deriving DecidableEq, Repr

/-- Directory constants from the top of app.py. -/
def DATA_DIR : String := "/var/www/html/data/"

def TRANSCRIPT_DIR : String := "/var/www/html/data/transcripts/"

def AUDIO_DIR : String := "/var/www/html/data/audio/"

/-- The canned transcript path returned by the `Yes` mock branch (line 342). -/
def cannedTranscript : String :=
  TRANSCRIPT_DIR ++ "transcript_eb3b9b19d81949f999680679c6e30bb0.txt"

/-- The canned audio path returned by the `Yes` mock branch (line 343). -/
def cannedAudio : String :=
  AUDIO_DIR ++ "podcast_768bee6fe8884dd3bb606d0556612b13.mp3"

/-- `get_api_key(key_name, ui_value)` (line 28): the UI value wins when
truthy (non-empty), otherwise the environment value (possibly absent). -/
def get_api_key (envValue : Option String) (ui_value : String) : Option String :=
  if ui_value = "" then envValue else some ui_value

/-- Python `str.lower()`, character-wise (computable in the kernel, unlike
`String.toLower`, whose recursion is well-founded). -/
def pyLower (s : String) : String := String.mk (s.data.map Char.toLower)

/-- Helper for `pySplit`: accumulate the current piece (reversed). -/
def splitCharAux (sep : Char) : List Char → List Char → List String
  | [], acc => [String.mk acc.reverse]
  | c :: cs, acc =>
      if c = sep then String.mk acc.reverse :: splitCharAux sep cs []
      else splitCharAux sep cs (c :: acc)

/-- Python `str.split(sep)` for a one-character separator: keeps empty
pieces and always yields at least one piece (so `"".split(',') == ['']`). -/
def pySplit (sep : Char) (s : String) : List String := splitCharAux sep s.data []

/-- Python `str.strip()`: drop leading and trailing whitespace. -/
def pyStrip (s : String) : String :=
  String.mk (((s.data.dropWhile Char.isWhitespace).reverse.dropWhile
    Char.isWhitespace).reverse)

/-- Python `str.replace(c, "")`: drop every occurrence of the character. -/
def pyRemoveChar (c : Char) (s : String) : String :=
  String.mk (s.data.filter (fun d => d ≠ c))

/-- Decimal rendering of a natural number (kernel-computable). -/
def natStrAux : Nat → Nat → List Char
  | 0, _ => []
  | fuel + 1, n =>
      if n < 10 then [Char.ofNat (48 + n)]
      else natStrAux fuel (n / 10) ++ [Char.ofNat (48 + n % 10)]

/-- Decimal rendering of a natural number. -/
def natStr (n : Nat) : String := String.mk (natStrAux (n + 1) n)

/-- Mock-mode parsing, lines 162-176: an empty (falsy) value is replaced by
"No" first, then the lower-cased text is compared against the recognised
spellings, and anything else becomes `Transcript`. -/
def parse_is_mock (is_mock : String) : MockMode :=
  let m := if is_mock = "" then "No" else is_mock
  if pyLower m = "promptonly" then MockMode.PromptOnly
  else if pyLower m = "transcript2voice" then MockMode.Transcript2Voice
  else if pyLower m = "false" ∨ pyLower m = "no" ∨ pyLower m = "0" then MockMode.No
  else if pyLower m = "true" ∨ pyLower m = "yes" ∨ pyLower m = "1" then MockMode.Yes
  else MockMode.Transcript

/-- `s.replace(" ", "")` applied to each resolved voice name (lines 194-195). -/
def removeSpaces (s : String) : String := pyRemoveChar ' ' s

/-- Voice-pair parsing, lines 178-195: a falsy value defaults to
"George, Daniel"; the string is split on commas; two tokens give the
(question, answer) pair, one token is used for both, anything else falls
back to George/Daniel; each name is stripped and then has every space
character removed. -/
def parse_voices (voices : String) : String × String :=
  let v := if voices = "" then "George, Daniel" else voices
  let pair : String × String :=
    match pySplit ',' v with
    | [x, y] => (pyStrip x, pyStrip y)
    | [x] => (pyStrip x, pyStrip x)
    | _ => ("George", "Daniel")
  (removeSpaces pair.1, removeSpaces pair.2)

/-- URL-list normalisation, line 198: split the free-text field on
newlines, strip each line, drop blanks. -/
def parse_urls (urls_input : String) : List String :=
  ((pySplit '\n' urls_input).map pyStrip).filter (fun u => u ≠ "")

/-- The `mock_flag` banner chosen at lines 293-301.  `Yes` keeps the
initial "[MOCK RUN]" value. -/
def mockFlagOf (m : MockMode) : String :=
  if m = MockMode.PromptOnly then "[PROMPT ONLY RUN]"
  else if m = MockMode.Transcript2Voice then "[TRANSCRIPT TO VOICE RUN]"
  else if m = MockMode.No then "[ACTUAL RUN]"
  else if m = MockMode.Transcript then "[TRANSCRIPT ONLY]"
  else "[MOCK RUN]"

/-- Tags for the four syntactic arms of the mock-mode elif chain
(lines 316, 341, 348, 392), plus `bNone` for a hypothetical fall-through
(the chain has no final else). -/
inductive BranchTag
  | bT2V
  | bYes
  | bTranscriptNo
  | bPromptOnly
  | bNone
deriving DecidableEq, Repr

/-- The condition guarding each arm of the elif chain, exactly as written
in the source (note the dead `is_mock == "No"` disjunct on the
PromptOnly arm, line 392). -/
def branchCond (b : BranchTag) (m : MockMode) : Prop :=
  match b with
  | BranchTag.bT2V => m = MockMode.Transcript2Voice
  | BranchTag.bYes => m = MockMode.Yes
  | BranchTag.bTranscriptNo => m = MockMode.Transcript ∨ m = MockMode.No
  | BranchTag.bPromptOnly => m = MockMode.PromptOnly ∨ m = MockMode.No
  | BranchTag.bNone => False

instance (b : BranchTag) (m : MockMode) : Decidable (branchCond b m) := by
  cases b <;> simp only [branchCond] <;> infer_instance

/-- Which arm the elif chain runs for a given resolved mock mode. -/
def dispatch (m : MockMode) : BranchTag :=
  if m = MockMode.Transcript2Voice then BranchTag.bT2V
  else if m = MockMode.Yes then BranchTag.bYes
  else if m = MockMode.Transcript ∨ m = MockMode.No then BranchTag.bTranscriptNo
  else if m = MockMode.PromptOnly ∨ m = MockMode.No then BranchTag.bPromptOnly
  else BranchTag.bNone

/-- Python elif semantics: arm `b` executes for mode `m` iff its condition
holds and no earlier arm's condition does (for `bNone`: no arm fires). -/
def executes (m : MockMode) (b : BranchTag) : Prop :=
  match b with
  | BranchTag.bT2V => branchCond BranchTag.bT2V m
  | BranchTag.bYes => branchCond BranchTag.bYes m ∧ ¬ branchCond BranchTag.bT2V m
  | BranchTag.bTranscriptNo =>
      branchCond BranchTag.bTranscriptNo m ∧
      ¬ branchCond BranchTag.bT2V m ∧ ¬ branchCond BranchTag.bYes m
  | BranchTag.bPromptOnly =>
      branchCond BranchTag.bPromptOnly m ∧ ¬ branchCond BranchTag.bTranscriptNo m ∧
      ¬ branchCond BranchTag.bT2V m ∧ ¬ branchCond BranchTag.bYes m
  | BranchTag.bNone =>
      ¬ branchCond BranchTag.bT2V m ∧ ¬ branchCond BranchTag.bYes m ∧
      ¬ branchCond BranchTag.bTranscriptNo m ∧ ¬ branchCond BranchTag.bPromptOnly m

instance (m : MockMode) (b : BranchTag) : Decidable (executes m b) := by
  cases b <;> simp only [executes] <;> infer_instance

/-- Externally visible events of one request, in program order. -/
inductive Ev
  | evWrite (path : String)
  | evMkdtemp (path : String)
  | evRename (src dst : String)
  | evGen (transcriptOnly longform : Bool) (transcriptFileArg : Option String)
  | evSlackText (msg : String)
  | evSlackFiles (audio transcriptPath : Option String)
  | evNet (tag : String)
  | evCallback
deriving DecidableEq, Repr

/-- A non-raising result of `generate_podcast`: either a bare path string
or a dict-like result whose fields may be missing (accessing a missing
field raises a KeyError, line 335/363/384/405). -/
inductive GenOk
  | gStr (path : String)
  | gDict (audio transcriptPath prompt : Option String)
deriving DecidableEq, Repr

/-- Outcome of one `generate_podcast` call. -/
inductive GenRes
  | genRaise (msg : String)
  | genOk (v : GenOk)
deriving DecidableEq, Repr

/-- Outcome of one `files.getUploadURLExternal` request (lines 616-634). -/
inductive UrlRes
  | urlOk
  | urlNotOk
  | urlRaise (msg : String)
deriving DecidableEq, Repr

/-- Outcome of one raw upload PUT (lines 646-652): an HTTP status code, or
a transport exception. -/
inductive PutRes
  | putCode (code : Nat)
  | putRaise (msg : String)
deriving DecidableEq, Repr

/-- Outcome of the `files.completeUploadExternal` step (lines 655-685). -/
inductive CompRes
  | compOk
  | compNotOk
  | compRaise (msg : String)
deriving DecidableEq, Repr

/-- The oracle fixing every outcome the script does not control.
`fileGroup` is the `{epoch}_{random}` stamp of line 158; `mkdtempPdf` /
`mkdtempImg` are the two temporary directory names; `writeRes p` is
`none` when writing path `p` succeeds and `some msg` when it raises;
similarly for renames; `genRes n` is the outcome of the n-th
`generate_podcast` call; `jsonLoadsPrompt` resolves the
`json.loads(prompt_content)["input_text"]` step of lines 407-408 (`none`
means it raises); the Slack fields are indexed by upload-call number and
file label; `callbackPrep` is the payload-serialisation step of lines
500-512, which sits outside the inner try of the callback block. -/
structure Oracle where
  fileGroup : String
  mkdtempPdf : String
  mkdtempImg : String
  writeRes : String → Option String
  renameRes : String → String → Option String
  genRes : Nat → GenRes
  jsonLoadsPrompt : String → Option String
  slackUrlRes : Nat → String → UrlRes
  slackPutRes : Nat → String → PutRes
  slackCompRes : Nat → CompRes
  callbackPrep : Option String

/-- The process environment variables read by the handler. -/
structure Env where
  gemini : Option String
  openai : Option String
  elevenlabs : Option String
deriving DecidableEq, Repr

/-- Fixed per-request context: environment plus oracle. -/
structure Ctx where
  env : Env
  orc : Oracle

/-- One uploaded image: only its original filename matters to the handler
(it supplies the extension, line 228-229). -/
structure ImgFile where
  orig_name : Option String
deriving DecidableEq, Repr

/-- The raw form values `process_inputs` receives.  All text fields are
strings (an absent value is the empty string, which is what the Gradio
text widgets deliver and what the code's truthiness tests check);
`pdf_files` / `image_files` may be `None` or a list.  The creativity
slider is omitted: it is forwarded verbatim inside the conversation
config and no behaviour depends on it. -/
structure Inputs where
  text_input : String
  urls_input : String
  pdf_files : Option (List String)
  image_files : Option (List ImgFile)
  gemini_key : String
  openai_key : String
  elevenlabs_key : String
  word_count : Nat
  conversation_style : String
  roles_person1 : String
  roles_person2 : String
  dialogue_structure : String
  podcast_name : String
  podcast_tagline : String
  tts_model : String
  user_instructions : String
  voices : String
  is_mock : String
  request_id : String
  callback_url : String
  language : String
deriving DecidableEq, Repr

/-- The Python locals of `process_inputs` that the top-level except block
(lines 531-541) reads: `none` / `false` means the local has not been
assigned yet, so reading it raises UnboundLocalError. -/
structure PyLocals where
  requestId : Option String := none
  mock_flag : Option String := none
  slackVars : Bool := false
  temps : Option (List String × List String) := none
deriving DecidableEq, Repr

/-- Mutable world state: paths currently on disk, the event trace, and
counters numbering the generation calls and Slack upload calls. -/
structure St where
  disk : List String
  trace : List Ev
  genCalls : Nat
  slackCalls : Nat
deriving DecidableEq, Repr

/-- Full program state. -/
structure PState where
  loc : PyLocals
  st : St
deriving DecidableEq, Repr

/-- The computation monad: state plus Python exceptions (carried as their
`str(e)` message).  An `Except.error` outcome is an exception in flight;
the state at that moment is kept, as Python does. -/
def M (α : Type) : Type := PState → Except String α × PState

instance : Monad M where
  pure a := fun s => (Except.ok a, s)
  bind x f := fun s =>
    match x s with
    | (Except.ok a, s') => f a s'
    | (Except.error e, s') => (Except.error e, s')

/-- Raise a Python exception. -/
def throwM {α : Type} (msg : String) : M α := fun s => (Except.error msg, s)

/-- Read the whole state. -/
def getS : M PState := fun s => (Except.ok s, s)

def modifySt (f : St → St) : M Unit := fun s => (Except.ok (), { s with st := f s.st })

def modifyLoc (f : PyLocals → PyLocals) : M Unit := fun s =>
  (Except.ok (), { s with loc := f s.loc })

/-- Append an event to the trace. -/
def emit (e : Ev) : M Unit := modifySt fun st => { st with trace := st.trace ++ [e] }

/-- A Python try/except catching every exception of `body`. -/
def tryCatchM {α : Type} (body : M α) (handler : String → M α) : M α := fun s =>
  match body s with
  | (Except.ok a, s') => (Except.ok a, s')
  | (Except.error e, s') => handler e s'

/-- `open(path, "w"/"wb")` followed by a write: the path comes into
existence (Python creates/truncates the file on open, and both loops
record the path before opening it), then the write either succeeds or
raises as the oracle dictates. -/
def fsWrite (ctx : Ctx) (path : String) : M Unit := do
  emit (Ev.evWrite path)
  modifySt fun st => { st with disk := path :: st.disk }
  match ctx.orc.writeRes path with
  | none => pure ()
  | some msg => throwM msg

/-- `tempfile.mkdtemp()` with the oracle-chosen name. -/
def fsMkdtemp (path : String) : M Unit := do
  emit (Ev.evMkdtemp path)
  modifySt fun st => { st with disk := path :: st.disk }

/-- `os.rename(src, dst)`. -/
def fsRename (ctx : Ctx) (src dst : String) : M Unit := do
  emit (Ev.evRename src dst)
  match ctx.orc.renameRes src dst with
  | some msg => throwM msg
  | none => modifySt fun st =>
      { st with disk := dst :: st.disk.filter (fun p => p ≠ src) }

/-- The guarded removal used by both cleanup loops:
`if os.path.exists(p): os.unlink(p)` (and likewise `os.rmdir`). -/
def fsRemove (path : String) : M Unit := do
  let s ← getS
  if path ∈ s.st.disk then
    modifySt fun st => { st with disk := st.disk.filter (fun p => p ≠ path) }

/-- One guarded-removal loop over a list of paths. -/
def remFiles : List String → M Unit
  | [] => pure ()
  | p :: r => do
      fsRemove p
      remFiles r

/-- One `generate_podcast` call.  The conversation config, URL list, text
and image paths are forwarded verbatim by the script and never inspected
again, so only the call's mode flags are recorded. -/
def callGen (ctx : Ctx) (transcriptOnly longform : Bool) (tfile : Option String) :
    M GenOk := do
  let s ← getS
  let n := s.st.genCalls
  emit (Ev.evGen transcriptOnly longform tfile)
  modifySt fun st => { st with genCalls := st.genCalls + 1 }
  match ctx.orc.genRes n with
  | GenRes.genRaise msg => throwM msg
  | GenRes.genOk v => pure v

/-- `_result[key]`: raises KeyError when the field is missing. -/
def dictGet (v : Option String) (key : String) : M String :=
  match v with
  | some x => pure x
  | none => throwM ("KeyError: " ++ key)

/-- `send_text_to_slack` (lines 543-586): posts one message and swallows
every failure internally, returning None. -/
def send_text_to_slack (text : String) : M Unit := do
  emit (Ev.evSlackText text)

/-- Path of the `input_params` JSON written by `send_files_to_slack`
before its try block (line 592). -/
def inputParamsPath (file_group : String) : String :=
  "data/input_params_" ++ file_group ++ ".json"

/-- Step 1 of the Slack upload (lines 610-634): one
`files.getUploadURLExternal` POST per file that exists on disk; a non-ok
response or transport error raises. -/
def slackGetUrls (ctx : Ctx) (ci : Nat) : List (String × String) → M Unit
  | [] => pure ()
  | (ft, fp) :: rest => do
      let s ← getS
      if fp ∈ s.st.disk then do
        emit (Ev.evNet "files.getUploadURLExternal")
        match ctx.orc.slackUrlRes ci ft with
        | UrlRes.urlRaise msg => throwM msg
        | UrlRes.urlNotOk => throwM ("Error getting upload URL for " ++ ft)
        | UrlRes.urlOk => slackGetUrls ctx ci rest
      else slackGetUrls ctx ci rest

/-- Step 2 (lines 636-652): PUT each existing file's bytes; any status
code other than 200 raises, as does a transport error. -/
def slackPuts (ctx : Ctx) (ci : Nat) : List (String × String) → M Unit
  | [] => pure ()
  | (ft, fp) :: rest => do
      let s ← getS
      if fp ∈ s.st.disk then do
        emit (Ev.evNet "upload PUT")
        match ctx.orc.slackPutRes ci ft with
        | PutRes.putRaise msg => throwM msg
        | PutRes.putCode c =>
            if c = 200 then slackPuts ctx ci rest
            else throwM (ft ++ " upload failed with status code")
      else slackPuts ctx ci rest

/-- Step 3 (lines 655-685): the single `files.completeUploadExternal`
POST; a non-ok response raises. -/
def slackComplete (ctx : Ctx) (ci : Nat) : M Unit := do
  emit (Ev.evNet "files.completeUploadExternal")
  match ctx.orc.slackCompRes ci with
  | CompRes.compRaise msg => throwM msg
  | CompRes.compNotOk => throwM "Error completing upload"
  | CompRes.compOk => pure ()

/-- The label/path pairs `send_files_to_slack` works with (lines 600-608):
the input-params file always, plus the audio and transcript when given. -/
def slackFilesList (file_group : String) (audio tr : Option String) :
    List (String × String) :=
  [("input", inputParamsPath file_group)]
  ++ (match audio with | some a => [("audio", a)] | none => [])
  ++ (match tr with | some t => [("transcript", t)] | none => [])

/-- The body of the try block of `send_files_to_slack` (lines 596-685):
the three-step upload protocol over the present files. -/
def slackTryBody (ctx : Ctx) (file_group : String) (audio tr : Option String) :
    M (Option Unit) := do
  let s ← getS
  let ci := s.st.slackCalls
  modifySt fun st => { st with slackCalls := st.slackCalls + 1 }
  slackGetUrls ctx ci (slackFilesList file_group audio tr)
  slackPuts ctx ci (slackFilesList file_group audio tr)
  slackComplete ctx ci
  pure (some ())

/-- The except handlers of `send_files_to_slack` (lines 687-704): post a
best-effort text notice and return None. -/
def slackErrHandler (uuid : String) : String → M (Option Unit) := fun e => do
  send_text_to_slack ("[" ++ uuid ++ "][ERROR] " ++ e)
  pure none

/-- `send_files_to_slack` (lines 589-704).  The `input_params` file write
sits before the try block, so its failure propagates to the caller;
everything inside the try is caught by the two except handlers, both of
which post a best-effort text notice and return None.  The
`initial_comment` and `input_params` texts are opaque to every claim and
are not modelled beyond the marker argument. -/
def send_files_to_slack (ctx : Ctx) (uuid file_group : String)
    (audio_filepath transcript_filepath : Option String) : M (Option Unit) := do
  emit (Ev.evSlackFiles audio_filepath transcript_filepath)
  fsWrite ctx (inputParamsPath file_group)
  tryCatchM (slackTryBody ctx file_group audio_filepath transcript_filepath)
    (slackErrHandler uuid)

/-- Line 140: `os.environ["GEMINI_API_KEY"] = get_api_key(...)`.
Assigning `None` into `os.environ` raises a TypeError, which happens
exactly when the UI field is falsy and the variable is unset. -/
def setGeminiEnv (ctx : Ctx) (inp : Inputs) : M Unit :=
  match get_api_key ctx.env.gemini inp.gemini_key with
  | none => throwM "str expected, not NoneType"
  | some _ => pure ()

/-- Lines 142-152: the per-backend key checks.  `not key` is Python
truthiness: the UI string is falsy iff empty, `os.getenv` is falsy iff
unset or set to the empty string.  The two sequential guarded raises are
written as one if-chain: the selected model determines which (if either)
check can fire, and the first raise aborts the rest, so the chain has the
same behaviour as the two consecutive Python if-statements. -/
def checkTtsKeys (ctx : Ctx) (inp : Inputs) : M Unit :=
  if inp.tts_model = "openai" ∧ inp.openai_key = "" ∧
      (ctx.env.openai = none ∨ ctx.env.openai = some "") then
    throwM "OpenAI API key is required when using OpenAI TTS model"
  else if inp.tts_model = "elevenlabs" ∧ inp.elevenlabs_key = "" ∧
      (ctx.env.elevenlabs = none ∨ ctx.env.elevenlabs = some "") then
    throwM "ElevenLabs API key is required when using ElevenLabs TTS model"
  else pure ()

/-- Name of the i-th materialised PDF inside the temp directory (line 211). -/
def pdfPath (dir : String) (i : Nat) : String :=
  dir ++ "/input_pdf_" ++ natStr i ++ ".pdf"

/-- The image extension: last dot-separated piece of the original name,
with `image_{i}.jpg` as the stand-in name when none is known
(lines 228-229). -/
def imgExt (f : ImgFile) (i : Nat) : String :=
  let nm := match f.orig_name with
    | some n => n
    | none => "image_" ++ natStr i ++ ".jpg"
  (pySplit '.' nm).getLastD ""

/-- Name of the i-th materialised image (line 232). -/
def imgPath (dir : String) (f : ImgFile) (i : Nat) : String :=
  dir ++ "/input_image_" ++ natStr i ++ "." ++ imgExt f i

/-- Record a path in the `temp_files` local (appends, like the list). -/
def addTempFile (p : String) : M Unit := modifyLoc fun l =>
  { l with temps := match l.temps with
      | some (tfs, tds) => some (tfs ++ [p], tds)
      | none => none }

/-- Record a directory in the `temp_dirs` local. -/
def addTempDir (d : String) : M Unit := modifyLoc fun l =>
  { l with temps := match l.temps with
      | some (tfs, tds) => some (tfs, tds ++ [d])
      | none => none }

/-- The PDF materialisation loop (lines 210-217): for each file, record
the target path in `temp_files`, then write it (the write may raise). -/
def pdfLoop (ctx : Ctx) (dir : String) : Nat → Nat → M (List String)
  | 0, _ => pure []
  | Nat.succ k, i => do
      let p := pdfPath dir i
      addTempFile p
      fsWrite ctx p
      let rest ← pdfLoop ctx dir k (i + 1)
      pure (p :: rest)

/-- The image materialisation loop (lines 226-246); a failed write is
logged and re-raised, so it propagates exactly like the PDF case. -/
def imgLoop (ctx : Ctx) (dir : String) : List ImgFile → Nat → M (List String)
  | [], _ => pure []
  | f :: rest, i => do
      let p := imgPath dir f i
      addTempFile p
      fsWrite ctx p
      let r ← imgLoop ctx dir rest (i + 1)
      pure (p :: r)

/-- Lines 205-217: create one temp dir and materialise the PDFs when any
were uploaded; the written paths are appended to the URL list. -/
def materializePdfs (ctx : Ctx) (inp : Inputs) (urls0 : List String) :
    M (List String) :=
  match inp.pdf_files with
  | some pdfs =>
      if pdfs.length > 0 then do
        let dir := ctx.orc.mkdtempPdf
        fsMkdtemp dir
        addTempDir dir
        let ps ← pdfLoop ctx dir pdfs.length 0
        pure (urls0 ++ ps)
      else pure urls0
  | none => pure urls0

/-- Lines 220-246: likewise for images, returning `image_paths`. -/
def materializeImgs (ctx : Ctx) (inp : Inputs) : M (List String) :=
  match inp.image_files with
  | some imgs =>
      if imgs.length > 0 then do
        let dir := ctx.orc.mkdtempImg
        fsMkdtemp dir
        addTempDir dir
        imgLoop ctx dir imgs 0
      else pure []
  | none => pure []

/-- The group-stamped public transcript path (lines 319/349/365). -/
def transcriptPathOf (fg : String) : String :=
  TRANSCRIPT_DIR ++ "transcript_" ++ fg ++ ".txt"

/-- The group-stamped public audio path (line 388). -/
def audioPathOf (fg : String) : String :=
  AUDIO_DIR ++ "podcast_" ++ fg ++ ".mp3"

/-- The group-stamped prompt-file path (line 413). -/
def promptPathOf (fg : String) : String :=
  TRANSCRIPT_DIR ++ "prompt_" ++ fg ++ ".json"

/-- `audio_file = _result if isinstance(_result, str) else _result["audio_file"]`
(lines 331-335, 381-384). -/
def genAudioOf (r : GenOk) : M String :=
  match r with
  | GenOk.gStr p => pure p
  | GenOk.gDict a _ _ => dictGet a "audio_file"

/-- The transcript analogue (lines 359-363). -/
def genTranscriptOf (r : GenOk) : M String :=
  match r with
  | GenOk.gStr p => pure p
  | GenOk.gDict _ t _ => dictGet t "transcript_file"

/-- The prompt-content analogue (lines 402-405). -/
def genPromptOf (r : GenOk) : M String :=
  match r with
  | GenOk.gStr p => pure p
  | GenOk.gDict _ _ pr => dictGet pr "prompt"

/-- `json.loads(prompt_content)["input_text"]` (lines 407-408): raises
when the oracle says the prompt description does not parse. -/
def parsePromptDetails (ctx : Ctx) (pc : String) : M Unit :=
  match ctx.orc.jsonLoadsPrompt pc with
  | none => throwM "prompt details could not be parsed"
  | some _ => pure ()

/-- The mock-mode elif chain, lines 316-418, returning the
`(audio_file, transcript_file, prompt_file)` triple the tail of the
handler works with.  The prompt text reconstruction of `generatePrompt`
is opaque: only the resulting file write is observable. -/
def branchRun (ctx : Ctx) (inp : Inputs) (is_mock : MockMode) (fg : String) :
    M (Option String × Option String × Option String) :=
  match dispatch is_mock with
  | BranchTag.bT2V => do
      fsWrite ctx (transcriptPathOf fg)
      let r ← callGen ctx false false (some (transcriptPathOf fg))
      let audio ← genAudioOf r
      pure (some audio, some (transcriptPathOf fg), none)
  | BranchTag.bYes => pure (some cannedAudio, some cannedTranscript, none)
  | BranchTag.bTranscriptNo => do
      let r ← callGen ctx true (decide (inp.word_count > 5000)) none
      let tf0 ← genTranscriptOf r
      fsRename ctx tf0 (transcriptPathOf fg)
      if is_mock = MockMode.Transcript then
        pure (none, some (transcriptPathOf fg), none)
      else do
        let r2 ← callGen ctx false false (some (transcriptPathOf fg))
        let audio ← genAudioOf r2
        fsRename ctx audio (audioPathOf fg)
        pure (some (audioPathOf fg), some (transcriptPathOf fg), none)
  | BranchTag.bPromptOnly => do
      let r ← callGen ctx true (decide (inp.word_count > 5000)) none
      let pc ← genPromptOf r
      parsePromptDetails ctx pc
      fsWrite ctx (promptPathOf fg)
      pure (none, none, some (promptPathOf fg))
  | BranchTag.bNone => pure (none, none, none)

/-- The success-path cleanup (lines 422-431): guarded unlink of every
recorded temp file, then guarded rmdir of every recorded temp dir.
Reading the `temp_files` local before it was ever assigned would raise. -/
def cleanupTemps : M Unit := do
  let s ← getS
  match s.loc.temps with
  | none => throwM "UnboundLocalError: temp_files"
  | some (tfs, tds) => do
      remFiles tfs
      remFiles tds

/-- Lines 457-527: when a callback URL is given, the payload
serialisation and request construction sit outside the inner try and can
raise; the delivery itself has its failures swallowed. -/
def callbackStep (ctx : Ctx) (inp : Inputs) : M Unit :=
  if inp.callback_url ≠ "" then
    match ctx.orc.callbackPrep with
    | some msg => throwM msg
    | none => emit Ev.evCallback
  else pure ()

/-- `return audio_file` (line 529): Python `None` becomes `pyNone`. -/
def retOf (audio_file : Option String) : PyRet :=
  match audio_file with
  | some p => PyRet.pyStr p
  | none => PyRet.pyNone

/-- Lines 422-529: cleanup, the COMPLETED Slack upload, the optional
callback POST, then `return audio_file`. -/
def finishRun (ctx : Ctx) (inp : Inputs) (requestId fg : String)
    (audio_file transcript_file : Option String) : M PyRet := do
  cleanupTemps
  let _ ← send_files_to_slack ctx requestId fg audio_file transcript_file
  callbackStep ctx inp
  pure (retOf audio_file)

/-- Whether the raw form values carry a binary upload.  The PDF and image
widgets are `gr.Files(type="binary")` (lines 804-816), so a non-empty
upload list arrives as a list of bytes objects. -/
def hasBinaryUpload (inp : Inputs) : Bool :=
  (match inp.pdf_files with
   | some l => !l.isEmpty
   | none => false) ||
  (match inp.image_files with
   | some l => !l.isEmpty
   | none => false)

/-- Lines 113-136: `logger.info("Param " + json.dumps({...}, indent=4))`.
The serialised dict carries `pdf_files` and `image_files` verbatim, and
`json.dumps` raises TypeError on a bytes object, so this first statement
of the try block raises exactly when an upload is present — before the
key checks and before anything touches disk or network. -/
def logParams (inp : Inputs) : M Unit :=
  if hasBinaryUpload inp then
    throwM "Object of type bytes is not JSON serializable"
  else pure ()

/-- The body of the try block of `process_inputs` (lines 110-529).  The
pure conversation-config assembly is abstracted: it can change no
observable this development states claims about. -/
def processBody (ctx : Ctx) (inp : Inputs) : M PyRet := do
  logParams inp
  setGeminiEnv ctx inp
  checkTtsKeys ctx inp
  modifyLoc fun l => { l with slackVars := true }
  let fg := ctx.orc.fileGroup
  let requestId := if inp.request_id = "" then fg else inp.request_id
  modifyLoc fun l => { l with requestId := some requestId }
  let is_mock := parse_is_mock inp.is_mock
  let _voicesPair := parse_voices inp.voices
  let urls0 := parse_urls inp.urls_input
  modifyLoc fun l => { l with temps := some ([], []) }
  let _urls ← materializePdfs ctx inp urls0
  let _image_paths ← materializeImgs ctx inp
  let mock_flag := mockFlagOf is_mock
  modifyLoc fun l => { l with mock_flag := some mock_flag }
  let _ ← send_files_to_slack ctx requestId fg none none
  let out ← branchRun ctx inp is_mock fg
  finishRun ctx inp requestId fg out.1 out.2.1

/-- Removal of a list of paths from a disk (the error-path cleanup). -/
def removeAll (d : List String) : List String → List String
  | [] => d
  | p :: r => removeAll (d.filter (fun q => q ≠ p)) r

/-- The top-level except block, lines 531-541.  Its f-string reads
`requestId` and `mock_flag`, the `send_text_to_slack` call reads the
Slack locals, and the cleanup loops read `temp_files` / `temp_dirs`; any
of these being unbound raises UnboundLocalError out of the handler (an
`Except.error` outcome of the whole call).  Otherwise it posts the error
notice, removes the recorded temp paths, and returns `str(e)`. -/
def exceptHandler (e : String) (s : PState) : Except String PyRet × PState :=
  match s.loc.requestId with
  | none => (Except.error "UnboundLocalError: requestId", s)
  | some rid =>
    match s.loc.mock_flag with
    | none => (Except.error "UnboundLocalError: mock_flag", s)
    | some mf =>
      if s.loc.slackVars = false then
        (Except.error "UnboundLocalError: SLACK_BOT_TOKEN", s)
      else
        let s1 : PState :=
          { s with st := { s.st with trace := s.st.trace ++
              [Ev.evSlackText ("[" ++ rid ++ "][" ++ mf ++ "][ERROR]\t" ++ e)] } }
        match s.loc.temps with
        | none => (Except.error "UnboundLocalError: temp_files", s1)
        | some (tfs, tds) =>
            let d2 := removeAll (removeAll s1.st.disk tfs) tds
            (Except.ok (PyRet.pyStr e), { s1 with st := { s1.st with disk := d2 } })

/-- Fresh locals at function entry. -/
def locals0 : PyLocals := {}

/-- The whole of `process_inputs`: run the body; on an exception, run the
except block.  An `Except.error` in the first component means an
exception escaped `process_inputs` itself. -/
def processInputs (ctx : Ctx) (inp : Inputs) (st0 : St) :
    Except String PyRet × PState :=
  match processBody ctx inp { loc := locals0, st := st0 } with
  | (Except.ok r, s) => (Except.ok r, s)
  | (Except.error e, s) => exceptHandler e s

/-! ### Verification predicates and concrete instances -/

/-- The image temp paths, indexed from `i`. -/
def imgPathsFrom (dir : String) : List ImgFile → Nat → List String
  | [], _ => []
  | f :: r, i => imgPath dir f i :: imgPathsFrom dir r (i + 1)

/-- Every temporary path the materialisation phase can create for a given
oracle and input: the temp directories (when the corresponding upload
list is non-empty) and the per-file paths inside them. -/
def tempCandidates (orc : Oracle) (inp : Inputs) : List String :=
  (match inp.pdf_files with
   | some pdfs =>
       if pdfs.length > 0 then
         orc.mkdtempPdf :: (List.range pdfs.length).map (pdfPath orc.mkdtempPdf)
       else []
   | none => [])
  ++ (match inp.image_files with
      | some imgs =>
          if imgs.length > 0 then
            orc.mkdtempImg :: imgPathsFrom orc.mkdtempImg imgs 0
          else []
      | none => [])

/-- The non-temporary paths the handler can create: the Slack
`input_params` file and the three group-stamped public outputs. -/
def publicOutPaths (orc : Oracle) : List String :=
  [inputParamsPath orc.fileGroup, transcriptPathOf orc.fileGroup,
   audioPathOf orc.fileGroup, promptPathOf orc.fileGroup]

/-- Separation hypothesis for the cleanup claim: no temp candidate is
already on disk at entry, and no public output path coincides with a temp
candidate (true of any real run, where `mkdtemp` returns fresh
directories under the system temp root). -/
def C2Sep (orc : Oracle) (inp : Inputs) (st0 : St) : Prop :=
  (∀ p ∈ tempCandidates orc inp, p ∉ st0.disk) ∧
  (∀ p ∈ publicOutPaths orc, p ∉ tempCandidates orc inp)

/-- Invariant: every temp-candidate path currently on disk is recorded in
the `temp_files` / `temp_dirs` locals. -/
def C2Inv (C : List String) (s : PState) : Prop :=
  ∀ p ∈ s.st.disk, p ∈ C →
    ∃ tfs tds, s.loc.temps = some (tfs, tds) ∧ (p ∈ tfs ∨ p ∈ tds)

/-- No temp-candidate path is on disk. -/
def NoC (C : List String) (s : PState) : Prop := ∀ p ∈ s.st.disk, p ∉ C

/-- `x` only appends trace events satisfying `E`. -/
def TraceApp (E : Ev → Prop) {α : Type} (x : M α) : Prop :=
  ∀ s r s', x s = (r, s') → ∃ l, s'.st.trace = s.st.trace ++ l ∧ ∀ ev ∈ l, E ev

/-- The path is recorded in the `temp_files` or `temp_dirs` local. -/
def tracked (s : PState) (p : String) : Prop :=
  ∃ tfs tds, s.loc.temps = some (tfs, tds) ∧ (p ∈ tfs ∨ p ∈ tds)

/-- The cleanup invariant bundled with boundness of the temp locals. -/
def InvT (C : List String) (s : PState) : Prop :=
  C2Inv C s ∧ ∃ tfs tds, s.loc.temps = some (tfs, tds)

/-- `x` changes neither the disk nor the `temp_files`/`temp_dirs` locals. -/
def DTEq {α : Type} (x : M α) : Prop :=
  ∀ s r s', x s = (r, s') → s'.st.disk = s.st.disk ∧ s'.loc.temps = s.loc.temps

/-- `x` preserves the cleanup invariant on every outcome. -/
def PresInv (C : List String) {α : Type} (x : M α) : Prop :=
  ∀ s r s', x s = (r, s') → InvT C s → InvT C s'

/-- `x` keeps the disk free of the candidate paths on every outcome. -/
def PresNoC (C : List String) {α : Type} (x : M α) : Prop :=
  ∀ s r s', x s = (r, s') → NoC C s → NoC C s'

/-- A concrete all-success oracle used by the witnesses. -/
def orcW : Oracle :=
  { fileGroup := "g1"
    mkdtempPdf := "/tmp/pdfdir"
    mkdtempImg := "/tmp/imgdir"
    writeRes := fun _ => none
    renameRes := fun _ _ => none
    genRes := fun _ => GenRes.genOk (GenOk.gStr "/var/www/html/data/audio/tmp/x.mp3")
    jsonLoadsPrompt := fun _ => some "text"
    slackUrlRes := fun _ _ => UrlRes.urlOk
    slackPutRes := fun _ _ => PutRes.putCode 200
    slackCompRes := fun _ => CompRes.compOk
    callbackPrep := none }

/-- `orcW` with the audio PUT of the second (COMPLETED) Slack upload
failing with a non-200 status. -/
def orcPutFail : Oracle :=
  { orcW with slackPutRes := fun ci ft =>
      if ci = 1 ∧ ft = "audio" then PutRes.putCode 404 else PutRes.putCode 200 }

/-- A concrete environment with only the Gemini key set. -/
def envW : Env := { gemini := some "g", openai := none, elevenlabs := none }

/-- A minimal concrete request (mock mode "yes", edge TTS, no uploads). -/
def inpBase : Inputs :=
  { text_input := ""
    urls_input := ""
    pdf_files := none
    image_files := none
    gemini_key := ""
    openai_key := ""
    elevenlabs_key := ""
    word_count := 2000
    conversation_style := "engaging"
    roles_person1 := "host"
    roles_person2 := "guest"
    dialogue_structure := "intro"
    podcast_name := "P"
    podcast_tagline := "T"
    tts_model := "edge"
    user_instructions := ""
    voices := "George, Daniel"
    is_mock := "yes"
    request_id := ""
    callback_url := ""
    language := "English" }

/-- The empty initial world state. -/
def st0Empty : St := { disk := [], trace := [], genCalls := 0, slackCalls := 0 }

/-- The C1 failing input: OpenAI TTS selected, no OpenAI key anywhere,
Gemini key present in the environment. -/
def inpC1 : Inputs := { inpBase with tts_model := "openai" }

/-- The concrete context used by the witnesses. -/
def ctxW : Ctx := { env := envW, orc := orcW }

/-- `ctxW` with the failing PUT oracle. -/
def ctxPutFail : Ctx := { env := envW, orc := orcPutFail }

/-- Initial state with the canned audio file present on disk (C8 witness). -/
def st0C8 : St := { disk := [cannedAudio], trace := [], genCalls := 0, slackCalls := 0 }

/-! Intermediate program states of the concrete witness runs.  Each
stepwise run lemma below walks `processBody` one stage at a time, so
every stage is evaluated by the kernel on a literal state. -/

/-- State at entry. -/
def wPre0 (st0 : St) : PState := { loc := locals0, st := st0 }

/-- After line 154 (slack locals bound). -/
def wPreA (st0 : St) : PState :=
  { loc := { requestId := none, mock_flag := none, slackVars := true,
             temps := none },
    st := st0 }

/-- After line 157 (requestId bound). -/
def wPreB (st0 : St) : PState :=
  { loc := { requestId := some "g1", mock_flag := none, slackVars := true,
             temps := none },
    st := st0 }

/-- After line 201 (temps bound). -/
def wPreC (st0 : St) : PState :=
  { loc := { requestId := some "g1", mock_flag := none, slackVars := true,
             temps := some ([], []) },
    st := st0 }

/-- After line 293 (mock_flag bound). -/
def wPreD (st0 : St) (mf : String) : PState :=
  { loc := { requestId := some "g1", mock_flag := some mf, slackVars := true,
             temps := some ([], []) },
    st := st0 }

/-- The trace of one fully successful Slack upload call. -/
def wSlackEvs (a t : Option String) : List Ev :=
  [Ev.evSlackFiles a t,
   Ev.evWrite "data/input_params_g1.json",
   Ev.evNet "files.getUploadURLExternal",
   Ev.evNet "upload PUT",
   Ev.evNet "files.completeUploadExternal"]

/-- After the BEGIN Slack call of a no-upload run. -/
def wSE (mf : String) : PState :=
  { loc := { requestId := some "g1", mock_flag := some mf, slackVars := true,
             temps := some ([], []) },
    st := { disk := ["data/input_params_g1.json"],
            trace := wSlackEvs none none,
            genCalls := 0, slackCalls := 1 } }

/-- After the Transcript branch (`lf` is the longform flag it passed). -/
def wSTrB (lf : Bool) : PState :=
  { wSE "[TRANSCRIPT ONLY]" with st := { (wSE "[TRANSCRIPT ONLY]").st with
      disk := [transcriptPathOf "g1", "data/input_params_g1.json"],
      trace := wSlackEvs none none ++
        [Ev.evGen true lf none,
         Ev.evRename "/var/www/html/data/audio/tmp/x.mp3" (transcriptPathOf "g1")],
      genCalls := 1 } }

/-- Final state of the Transcript witness run. -/
def wSTrF (lf : Bool) : PState :=
  { wSTrB lf with st := { (wSTrB lf).st with
      disk := ["data/input_params_g1.json", transcriptPathOf "g1",
               "data/input_params_g1.json"],
      trace := (wSTrB lf).st.trace ++
        [Ev.evSlackFiles none (some (transcriptPathOf "g1")),
         Ev.evWrite "data/input_params_g1.json",
         Ev.evNet "files.getUploadURLExternal",
         Ev.evNet "files.getUploadURLExternal",
         Ev.evNet "upload PUT",
         Ev.evNet "upload PUT",
         Ev.evNet "files.completeUploadExternal"],
      slackCalls := 2 } }

/-- After the PromptOnly branch. -/
def wSPrB : PState :=
  { wSE "[PROMPT ONLY RUN]" with st := { (wSE "[PROMPT ONLY RUN]").st with
      disk := [promptPathOf "g1", "data/input_params_g1.json"],
      trace := wSlackEvs none none ++
        [Ev.evGen true false none, Ev.evWrite (promptPathOf "g1")],
      genCalls := 1 } }

/-- Final state of the PromptOnly witness run. -/
def wSPrF : PState :=
  { wSPrB with st := { wSPrB.st with
      disk := ["data/input_params_g1.json", promptPathOf "g1",
               "data/input_params_g1.json"],
      trace := wSPrB.st.trace ++ wSlackEvs none none,
      slackCalls := 2 } }

/-- Final state of the mock-Yes witness run. -/
def wSYesF : PState :=
  { wSE "[MOCK RUN]" with st := { (wSE "[MOCK RUN]").st with
      disk := ["data/input_params_g1.json", "data/input_params_g1.json"],
      trace := wSlackEvs none none ++
        wSlackEvs (some cannedAudio) (some cannedTranscript),
      slackCalls := 2 } }

/-- After the BEGIN Slack call of the failing-PUT witness run. -/
def wSEputf : PState :=
  { loc := { requestId := some "g1", mock_flag := some "[MOCK RUN]",
             slackVars := true, temps := some ([], []) },
    st := { disk := ["data/input_params_g1.json", cannedAudio],
            trace := wSlackEvs none none,
            genCalls := 0, slackCalls := 1 } }

/-- Final state of the failing-PUT witness run: the audio PUT of the
COMPLETED upload returned 404, the failure was contained and reported as
a text notice, and the handler still returned the canned audio path. -/
def wSPutF : PState :=
  { wSEputf with st := { wSEputf.st with
      disk := ["data/input_params_g1.json", "data/input_params_g1.json",
               cannedAudio],
      trace := wSlackEvs none none ++
        [Ev.evSlackFiles (some cannedAudio) (some cannedTranscript),
         Ev.evWrite "data/input_params_g1.json",
         Ev.evNet "files.getUploadURLExternal",
         Ev.evNet "files.getUploadURLExternal",
         Ev.evNet "upload PUT",
         Ev.evNet "upload PUT",
         Ev.evSlackText "[g1][ERROR] audio upload failed with status code"],
      slackCalls := 2 } }

/-- Transcript mode at word count 6000 (C6 witness). -/
def inpTr6000 : Inputs := { inpBase with is_mock := "transcript", word_count := 6000 }

/-- Transcript mode at word count 2000 (C6 witness). -/
def inpTr2000 : Inputs := { inpBase with is_mock := "transcript", word_count := 2000 }

/-- PromptOnly mode (C10 witness). -/
def inpPrompt : Inputs := { inpBase with is_mock := "promptonly" }

/-! ### Run lemmas for the monad -/

theorem run_pure {α : Type} (a : α) (s : PState) :
    (pure a : M α) s = (Except.ok a, s) := rfl

theorem run_bind {α β : Type} (x : M α) (f : α → M β) (s : PState) :
    (x >>= f) s = match x s with
      | (Except.ok a, s') => f a s'
      | (Except.error e, s') => (Except.error e, s') := rfl

theorem run_throwM {α : Type} (m : String) (s : PState) :
    (throwM m : M α) s = (Except.error m, s) := rfl

theorem run_getS (s : PState) : getS s = (Except.ok s, s) := rfl

theorem run_modifySt (f : St → St) (s : PState) :
    modifySt f s = (Except.ok (), { s with st := f s.st }) := rfl

theorem run_modifyLoc (f : PyLocals → PyLocals) (s : PState) :
    modifyLoc f s = (Except.ok (), { s with loc := f s.loc }) := rfl

theorem run_emit (e : Ev) (s : PState) :
    emit e s =
      (Except.ok (), { s with st := { s.st with trace := s.st.trace ++ [e] } }) := rfl

theorem bind_ok_step {α β : Type} {x : M α} {f : α → M β} {s : PState} {a : α}
    {s1 : PState} (hx : x s = (Except.ok a, s1)) : (x >>= f) s = f a s1 := by
  rw [run_bind, hx]

theorem bind_ok {α β : Type} {x : M α} {f : α → M β} {s : PState} {b : β} {s' : PState}
    (h : (x >>= f) s = (Except.ok b, s')) :
    ∃ a s1, x s = (Except.ok a, s1) ∧ f a s1 = (Except.ok b, s') := by
  rw [run_bind] at h
  rcases hx : x s with ⟨v, s1⟩
  rw [hx] at h
  cases v with
  | ok a => exact ⟨a, s1, rfl, h⟩
  | error e => exact absurd h (by simp)

theorem bind_cases {α β : Type} {x : M α} {f : α → M β} {s : PState}
    {out : Except String β × PState} (h : (x >>= f) s = out) :
    (∃ e s1, x s = (Except.error e, s1) ∧ out = (Except.error e, s1)) ∨
    (∃ a s1, x s = (Except.ok a, s1) ∧ f a s1 = out) := by
  rw [run_bind] at h
  rcases hx : x s with ⟨v, s1⟩
  rw [hx] at h
  cases v with
  | ok a => exact Or.inr ⟨a, s1, rfl, h⟩
  | error e => exact Or.inl ⟨e, s1, rfl, h.symm⟩

theorem run_tryCatch_ok {α : Type} {body : M α} {h : String → M α} {s : PState}
    {a : α} {s' : PState} (hb : body s = (Except.ok a, s')) :
    tryCatchM body h s = (Except.ok a, s') := by
  unfold tryCatchM
  rw [hb]

theorem run_tryCatch_error {α : Type} {body : M α} {h : String → M α} {s : PState}
    {e : String} {s' : PState} (hb : body s = (Except.error e, s')) :
    tryCatchM body h s = h e s' := by
  unfold tryCatchM
  rw [hb]

/-! ### The pure parsers (claims C4, C5, C9) -/

theorem pyLower_ne_empty {s t : String} (h : pyLower s = t) (ht : t ≠ "") : s ≠ "" := by
  intro he
  apply ht
  rw [← h, he]
  rfl

/-- Claim C4: the mock-mode parser matches its recognised spellings
case-insensitively (each string whose lower-casing is a recognised
spelling resolves to that spelling's enum value), the empty value
resolves to `No`, and every unrecognised non-empty value resolves to
`Transcript`. -/
theorem claim_C4_mock_parse :
    (∀ s : String, pyLower s = "promptonly" → parse_is_mock s = MockMode.PromptOnly)
  ∧ (∀ s : String, pyLower s = "transcript2voice" →
      parse_is_mock s = MockMode.Transcript2Voice)
  ∧ (∀ s : String, pyLower s = "false" ∨ pyLower s = "no" ∨ pyLower s = "0" →
      parse_is_mock s = MockMode.No)
  ∧ (∀ s : String, pyLower s = "true" ∨ pyLower s = "yes" ∨ pyLower s = "1" →
      parse_is_mock s = MockMode.Yes)
  ∧ parse_is_mock "" = MockMode.No
  ∧ (∀ s : String, s ≠ "" →
      pyLower s ∉ (["promptonly", "transcript2voice", "false", "no", "0",
        "true", "yes", "1"] : List String) →
      parse_is_mock s = MockMode.Transcript) := by
  refine ⟨?_, ?_, ?_, ?_, by decide, ?_⟩
  · intro s h
    have hs : s ≠ "" := pyLower_ne_empty h (by decide)
    simp only [parse_is_mock, if_neg hs, h]
    decide
  · intro s h
    have hs : s ≠ "" := pyLower_ne_empty h (by decide)
    simp only [parse_is_mock, if_neg hs, h]
    decide
  · rintro s (h | h | h) <;>
    · have hs : s ≠ "" := pyLower_ne_empty h (by decide)
      simp only [parse_is_mock, if_neg hs, h]
      decide
  · rintro s (h | h | h) <;>
    · have hs : s ≠ "" := pyLower_ne_empty h (by decide)
      simp only [parse_is_mock, if_neg hs, h]
      decide
  · intro s hs h
    simp only [List.mem_cons, List.not_mem_nil, or_false, not_or] at h
    obtain ⟨h1, h2, h3, h4, h5, h6, h7, h8⟩ := h
    simp only [parse_is_mock, if_neg hs]
    rw [if_neg h1, if_neg h2,
      if_neg (by tauto : ¬(pyLower s = "false" ∨ pyLower s = "no" ∨ pyLower s = "0")),
      if_neg (by tauto : ¬(pyLower s = "true" ∨ pyLower s = "yes" ∨ pyLower s = "1"))]

/-- Witness for C4 at concrete inputs in various letter cases. -/
theorem claim_C4_mock_parse_witness :
    parse_is_mock "PrOmPtOnLy" = MockMode.PromptOnly
  ∧ parse_is_mock "TRUE" = MockMode.Yes
  ∧ parse_is_mock "nO" = MockMode.No
  ∧ parse_is_mock "Transcript2VOICE" = MockMode.Transcript2Voice
  ∧ parse_is_mock "" = MockMode.No
  ∧ parse_is_mock "garbage" = MockMode.Transcript :=
  -- each conjunct instantiated through the claim theorem

  ⟨claim_C4_mock_parse.1 "PrOmPtOnLy" (by decide),
   claim_C4_mock_parse.2.2.2.1 "TRUE" (Or.inl (by decide)),
   claim_C4_mock_parse.2.2.1 "nO" (Or.inr (Or.inl (by decide))),
   claim_C4_mock_parse.2.1 "Transcript2VOICE" (by decide),
   claim_C4_mock_parse.2.2.2.2.1,
   claim_C4_mock_parse.2.2.2.2.2 "garbage" (by decide) (by decide)⟩

/-- Counterexample to claim C5 as stated: the empty voices string splits
on commas into exactly one token (the empty token), whose trimmed,
space-stripped form is the empty string, yet the parser resolves it to
the fallback pair, not to the pair of empty strings. -/
theorem claim_C5_counterexample :
    pySplit ',' "" = [""]
  ∧ removeSpaces (pyStrip "") = ""
  ∧ parse_voices "" = ("George", "Daniel")
  ∧ parse_voices "" ≠ ("", "") := by
  refine ⟨by decide, by decide, by decide, by decide⟩

/-- Claim C5 as amended: for a non-empty voices string, two comma tokens
give the trimmed tokens in order, one token is used for both voices, and
other token counts give the fallback pair; the empty (absent) value also
gives the fallback pair; internal space characters are removed from each
resolved name. -/
theorem claim_C5_amended :
    (∀ s x y : String, s ≠ "" → pySplit ',' s = [x, y] →
      parse_voices s = (removeSpaces (pyStrip x), removeSpaces (pyStrip y)))
  ∧ (∀ s x : String, s ≠ "" → pySplit ',' s = [x] →
      parse_voices s = (removeSpaces (pyStrip x), removeSpaces (pyStrip x)))
  ∧ (∀ s : String,
      s = "" ∨ (pySplit ',' s).length = 0 ∨ 2 < (pySplit ',' s).length →
      parse_voices s = ("George", "Daniel")) := by
  refine ⟨?_, ?_, ?_⟩
  · intro s x y hs hsplit
    simp only [parse_voices, if_neg hs, hsplit]
  · intro s x hs hsplit
    simp only [parse_voices, if_neg hs, hsplit]
  · intro s h
    rcases h with h | h | h
    · subst h
      decide
    · by_cases hs : s = ""
      · subst hs
        exact absurd h (by decide)
      · have hl : pySplit ',' s = [] := List.length_eq_zero.mp h
        simp only [parse_voices, if_neg hs, hl]
        decide
    · by_cases hs : s = ""
      · subst hs
        exact absurd h (by decide)
      · rcases hsplit : pySplit ',' s with _ | ⟨a, _ | ⟨b, _ | ⟨c, r⟩⟩⟩ <;>
          rw [hsplit] at h
        · exact absurd h (by decide)
        · exact absurd h (by simp)
        · exact absurd h (by simp)
        · simp only [parse_voices, if_neg hs, hsplit]
          decide

/-- Witness for the amended C5 at concrete inputs: a two-token input with
an internal space, a one-token input, a three-token input. -/
theorem claim_C5_amended_witness :
    parse_voices "Aria Smith, Bob" = ("AriaSmith", "Bob")
  ∧ parse_voices " Solo " = ("Solo", "Solo")
  ∧ parse_voices "a,b,c" = ("George", "Daniel") := by
  refine ⟨?_, ?_, ?_⟩
  · have h := claim_C5_amended.1 "Aria Smith, Bob" "Aria Smith" " Bob"
      (by decide) (by decide)
    exact h.trans (by decide)
  · have h := claim_C5_amended.2.1 " Solo " " Solo " (by decide) (by decide)
    exact h.trans (by decide)
  · exact claim_C5_amended.2.2 "a,b,c" (Or.inr (Or.inr (by decide)))


/-- Claim C9: the parser always yields one of the five enum values, no
value makes the elif chain fall through, exactly one arm executes for
every resolved mode, and the arm that executes is the one `dispatch`
selects (Python elif semantics). -/
theorem claim_C9_dispatch_total :
    (∀ s : String,
      parse_is_mock s = MockMode.No ∨ parse_is_mock s = MockMode.Yes ∨
      parse_is_mock s = MockMode.Transcript ∨
      parse_is_mock s = MockMode.Transcript2Voice ∨
      parse_is_mock s = MockMode.PromptOnly)
  ∧ (∀ m : MockMode, ¬ executes m BranchTag.bNone)
  ∧ (∀ m : MockMode, dispatch m ≠ BranchTag.bNone)
  ∧ (∀ m : MockMode, executes m (dispatch m))
  ∧ (∀ m : MockMode, ∃! b : BranchTag, executes m b) := by
  refine ⟨?_, ?_, ?_, ?_, ?_⟩
  · intro s
    cases h : parse_is_mock s <;> decide
  · intro m
    cases m <;> decide
  · intro m
    cases m <;> decide
  · intro m
    cases m <;> decide
  · intro m
    cases m
    · exact ⟨BranchTag.bTranscriptNo, by decide, fun y hy => by
        cases y <;> first | rfl | exact absurd hy (by decide)⟩
    · exact ⟨BranchTag.bYes, by decide, fun y hy => by
        cases y <;> first | rfl | exact absurd hy (by decide)⟩
    · exact ⟨BranchTag.bTranscriptNo, by decide, fun y hy => by
        cases y <;> first | rfl | exact absurd hy (by decide)⟩
    · exact ⟨BranchTag.bT2V, by decide, fun y hy => by
        cases y <;> first | rfl | exact absurd hy (by decide)⟩
    · exact ⟨BranchTag.bPromptOnly, by decide, fun y hy => by
        cases y <;> first | rfl | exact absurd hy (by decide)⟩

/-! ### Claims C1 and C3: the key checks and the except block -/

/-- Claim C1 is false of the code: on a request that selects the OpenAI
TTS backend with no OpenAI key available (Gemini key present), the
`ValueError` raised by the key check reaches the top-level except block
while `requestId` (line 157) is still unbound, so the except block's own
f-string raises UnboundLocalError past `process_inputs`: the call does
not return the error message as a string — it raises.  The final state
shows no file or network activity either. -/
theorem claim_C1_handler_escapes :
    processInputs ctxW inpC1 st0Empty =
      (Except.error "UnboundLocalError: requestId",
        { loc := locals0, st := st0Empty }) := by
  rfl

theorem traceApp_pure {E : Ev → Prop} {α : Type} (a : α) :
    TraceApp E (pure a : M α) := by
  intro s r s' h
  rw [run_pure] at h
  cases h
  exact ⟨[], by simp, by simp⟩

theorem traceApp_throwM {E : Ev → Prop} {α : Type} (m : String) :
    TraceApp E (throwM m : M α) := by
  intro s r s' h
  cases h
  exact ⟨[], by simp, by simp⟩

theorem traceApp_getS {E : Ev → Prop} : TraceApp E getS := by
  intro s r s' h
  cases h
  exact ⟨[], by simp, by simp⟩

theorem traceApp_modifySt {E : Ev → Prop} {f : St → St}
    (hf : ∀ st, (f st).trace = st.trace) : TraceApp E (modifySt f) := by
  intro s r s' h
  rw [run_modifySt] at h
  cases h
  exact ⟨[], by simp [hf], by simp⟩

theorem traceApp_modifyLoc {E : Ev → Prop} (f : PyLocals → PyLocals) :
    TraceApp E (modifyLoc f) := by
  intro s r s' h
  rw [run_modifyLoc] at h
  cases h
  exact ⟨[], by simp, by simp⟩

theorem traceApp_emit {E : Ev → Prop} {e : Ev} (he : E e) : TraceApp E (emit e) := by
  intro s r s' h
  rw [run_emit] at h
  cases h
  refine ⟨[e], rfl, by simpa using he⟩

theorem traceApp_bind {E : Ev → Prop} {α β : Type} {x : M α} {f : α → M β}
    (hx : TraceApp E x) (hf : ∀ a, TraceApp E (f a)) : TraceApp E (x >>= f) := by
  intro s r s' h
  rcases bind_cases h with ⟨e, s1, hx1, hout⟩ | ⟨a, s1, hx1, hf1⟩
  · obtain ⟨l, hl, hE⟩ := hx s _ _ hx1
    injection hout with h1 h2
    subst h2
    exact ⟨l, hl, hE⟩
  · obtain ⟨l1, hl1, hE1⟩ := hx s _ _ hx1
    obtain ⟨l2, hl2, hE2⟩ := hf a s1 _ _ hf1
    refine ⟨l1 ++ l2, ?_, ?_⟩
    · rw [hl2, hl1, List.append_assoc]
    · intro ev hev
      rcases List.mem_append.mp hev with hev | hev
      · exact hE1 ev hev
      · exact hE2 ev hev

theorem traceApp_tryCatch {E : Ev → Prop} {α : Type} {body : M α}
    {h : String → M α} (hb : TraceApp E body) (hh : ∀ e, TraceApp E (h e)) :
    TraceApp E (tryCatchM body h) := by
  intro s r s' hrun
  unfold tryCatchM at hrun
  rcases hx : body s with ⟨v, s1⟩
  rw [hx] at hrun
  cases v with
  | ok a =>
      cases hrun
      exact hb s _ _ hx
  | error e =>
      obtain ⟨l1, hl1, hE1⟩ := hb s _ _ hx
      obtain ⟨l2, hl2, hE2⟩ := hh e s1 _ _ hrun
      refine ⟨l1 ++ l2, ?_, ?_⟩
      · rw [hl2, hl1, List.append_assoc]
      · intro ev hev
        rcases List.mem_append.mp hev with hev | hev
        · exact hE1 ev hev
        · exact hE2 ev hev

theorem traceApp_fsWrite {E : Ev → Prop} (ctx : Ctx) (p : String)
    (hE : E (Ev.evWrite p)) : TraceApp E (fsWrite ctx p) := by
  unfold fsWrite
  refine traceApp_bind (traceApp_emit hE) fun _ => ?_
  refine traceApp_bind (traceApp_modifySt fun _ => rfl) fun _ => ?_
  cases hw : ctx.orc.writeRes p
  · exact traceApp_pure _
  · exact traceApp_throwM _

theorem traceApp_fsMkdtemp {E : Ev → Prop} (p : String)
    (hE : E (Ev.evMkdtemp p)) : TraceApp E (fsMkdtemp p) := by
  unfold fsMkdtemp
  exact traceApp_bind (traceApp_emit hE) fun _ =>
    traceApp_modifySt fun _ => rfl

theorem traceApp_fsRename {E : Ev → Prop} (ctx : Ctx) (src dst : String)
    (hE : E (Ev.evRename src dst)) : TraceApp E (fsRename ctx src dst) := by
  unfold fsRename
  refine traceApp_bind (traceApp_emit hE) fun _ => ?_
  cases hr : ctx.orc.renameRes src dst
  · exact traceApp_modifySt fun _ => rfl
  · exact traceApp_throwM _

theorem traceApp_fsRemove {E : Ev → Prop} (p : String) : TraceApp E (fsRemove p) := by
  unfold fsRemove
  refine traceApp_bind traceApp_getS fun s => ?_
  by_cases hm : p ∈ s.st.disk
  · rw [if_pos hm]
    exact traceApp_modifySt fun _ => rfl
  · rw [if_neg hm]
    exact traceApp_pure _

theorem traceApp_remFiles {E : Ev → Prop} (l : List String) :
    TraceApp E (remFiles l) := by
  induction l with
  | nil => exact traceApp_pure _
  | cons p r ih =>
      exact traceApp_bind (traceApp_fsRemove p) fun _ => ih

theorem traceApp_callGen {E : Ev → Prop} (ctx : Ctx)
    (transcriptOnly longform : Bool) (tfile : Option String)
    (hE : E (Ev.evGen transcriptOnly longform tfile)) :
    TraceApp E (callGen ctx transcriptOnly longform tfile) := by
  unfold callGen
  refine traceApp_bind traceApp_getS fun s => ?_
  refine traceApp_bind (traceApp_emit hE) fun _ => ?_
  refine traceApp_bind (traceApp_modifySt fun _ => rfl) fun _ => ?_
  cases hg : ctx.orc.genRes s.st.genCalls
  · exact traceApp_throwM _
  · exact traceApp_pure _

theorem traceApp_dictGet {E : Ev → Prop} (v : Option String) (key : String) :
    TraceApp E (dictGet v key) := by
  cases v
  · exact traceApp_throwM _
  · exact traceApp_pure _

theorem traceApp_sendText {E : Ev → Prop} (text : String)
    (hE : E (Ev.evSlackText text)) : TraceApp E (send_text_to_slack text) := by
  unfold send_text_to_slack
  exact traceApp_emit hE

theorem traceApp_slackGetUrls {E : Ev → Prop} (ctx : Ctx) (ci : Nat)
    (hnet : ∀ t, E (Ev.evNet t)) :
    ∀ files : List (String × String), TraceApp E (slackGetUrls ctx ci files) := by
  intro files
  induction files with
  | nil => exact traceApp_pure _
  | cons hd tl ih =>
      rcases hd with ⟨ft, fp⟩
      unfold slackGetUrls
      refine traceApp_bind traceApp_getS fun s => ?_
      by_cases hm : fp ∈ s.st.disk
      · rw [if_pos hm]
        refine traceApp_bind (traceApp_emit (hnet _)) fun _ => ?_
        cases hu : ctx.orc.slackUrlRes ci ft
        · exact ih
        · exact traceApp_throwM _
        · exact traceApp_throwM _
      · rw [if_neg hm]
        exact ih

theorem traceApp_slackPuts {E : Ev → Prop} (ctx : Ctx) (ci : Nat)
    (hnet : ∀ t, E (Ev.evNet t)) :
    ∀ files : List (String × String), TraceApp E (slackPuts ctx ci files) := by
  intro files
  induction files with
  | nil => exact traceApp_pure _
  | cons hd tl ih =>
      rcases hd with ⟨ft, fp⟩
      unfold slackPuts
      refine traceApp_bind traceApp_getS fun s => ?_
      by_cases hm : fp ∈ s.st.disk
      · rw [if_pos hm]
        refine traceApp_bind (traceApp_emit (hnet _)) fun _ => ?_
        split
        · exact traceApp_throwM _
        · split
          · exact ih
          · exact traceApp_throwM _
      · rw [if_neg hm]
        exact ih

theorem traceApp_slackComplete {E : Ev → Prop} (ctx : Ctx) (ci : Nat)
    (hnet : ∀ t, E (Ev.evNet t)) : TraceApp E (slackComplete ctx ci) := by
  unfold slackComplete
  refine traceApp_bind (traceApp_emit (hnet _)) fun _ => ?_
  cases hc : ctx.orc.slackCompRes ci
  · exact traceApp_pure _
  · exact traceApp_throwM _
  · exact traceApp_throwM _

theorem traceApp_slackTryBody {E : Ev → Prop} (ctx : Ctx) (fg : String)
    (audio tr : Option String) (hnet : ∀ t, E (Ev.evNet t)) :
    TraceApp E (slackTryBody ctx fg audio tr) := by
  unfold slackTryBody
  refine traceApp_bind traceApp_getS fun s => ?_
  refine traceApp_bind (traceApp_modifySt fun _ => rfl) fun _ => ?_
  refine traceApp_bind (traceApp_slackGetUrls ctx _ hnet _) fun _ => ?_
  refine traceApp_bind (traceApp_slackPuts ctx _ hnet _) fun _ => ?_
  exact traceApp_bind (traceApp_slackComplete ctx _ hnet) fun _ => traceApp_pure _

theorem traceApp_slackErrHandler {E : Ev → Prop} (uuid : String)
    (htext : ∀ m, E (Ev.evSlackText m)) (e : String) :
    TraceApp E (slackErrHandler uuid e) := by
  unfold slackErrHandler
  exact traceApp_bind (traceApp_sendText _ (htext _)) fun _ => traceApp_pure _

theorem traceApp_sendFiles {E : Ev → Prop} (ctx : Ctx) (uuid fg : String)
    (audio tr : Option String) (hsf : E (Ev.evSlackFiles audio tr))
    (hw : ∀ p, E (Ev.evWrite p)) (hnet : ∀ t, E (Ev.evNet t))
    (htext : ∀ m, E (Ev.evSlackText m)) :
    TraceApp E (send_files_to_slack ctx uuid fg audio tr) := by
  unfold send_files_to_slack
  refine traceApp_bind (traceApp_emit hsf) fun _ => ?_
  refine traceApp_bind (traceApp_fsWrite ctx _ (hw _)) fun _ => ?_
  exact traceApp_tryCatch (traceApp_slackTryBody ctx fg audio tr hnet)
    (traceApp_slackErrHandler uuid htext)

theorem traceApp_pdfLoop {E : Ev → Prop} (ctx : Ctx) (dir : String)
    (hw : ∀ p, E (Ev.evWrite p)) :
    ∀ k i, TraceApp E (pdfLoop ctx dir k i) := by
  intro k
  induction k with
  | zero => intro i; exact traceApp_pure _
  | succ k ih =>
      intro i
      unfold pdfLoop
      refine traceApp_bind (traceApp_modifyLoc _) fun _ => ?_
      refine traceApp_bind (traceApp_fsWrite ctx _ (hw _)) fun _ => ?_
      exact traceApp_bind (ih (i + 1)) fun _ => traceApp_pure _

theorem traceApp_imgLoop {E : Ev → Prop} (ctx : Ctx) (dir : String)
    (hw : ∀ p, E (Ev.evWrite p)) :
    ∀ (l : List ImgFile) i, TraceApp E (imgLoop ctx dir l i) := by
  intro l
  induction l with
  | nil => intro i; exact traceApp_pure _
  | cons f r ih =>
      intro i
      unfold imgLoop
      refine traceApp_bind (traceApp_modifyLoc _) fun _ => ?_
      refine traceApp_bind (traceApp_fsWrite ctx _ (hw _)) fun _ => ?_
      exact traceApp_bind (ih (i + 1)) fun _ => traceApp_pure _

theorem traceApp_materializePdfs {E : Ev → Prop} (ctx : Ctx) (inp : Inputs)
    (urls0 : List String) (hw : ∀ p, E (Ev.evWrite p))
    (hmk : ∀ p, E (Ev.evMkdtemp p)) :
    TraceApp E (materializePdfs ctx inp urls0) := by
  unfold materializePdfs
  split
  · split
    · refine traceApp_bind (traceApp_fsMkdtemp _ (hmk _)) fun _ => ?_
      refine traceApp_bind (traceApp_modifyLoc _) fun _ => ?_
      exact traceApp_bind (traceApp_pdfLoop ctx _ hw _ _) fun _ => traceApp_pure _
    · exact traceApp_pure _
  · exact traceApp_pure _

theorem traceApp_materializeImgs {E : Ev → Prop} (ctx : Ctx) (inp : Inputs)
    (hw : ∀ p, E (Ev.evWrite p)) (hmk : ∀ p, E (Ev.evMkdtemp p)) :
    TraceApp E (materializeImgs ctx inp) := by
  unfold materializeImgs
  split
  · split
    · refine traceApp_bind (traceApp_fsMkdtemp _ (hmk _)) fun _ => ?_
      refine traceApp_bind (traceApp_modifyLoc _) fun _ => ?_
      exact traceApp_imgLoop ctx _ hw _ _
    · exact traceApp_pure _
  · exact traceApp_pure _

theorem traceApp_setGemini {E : Ev → Prop} (ctx : Ctx) (inp : Inputs) :
    TraceApp E (setGeminiEnv ctx inp) := by
  unfold setGeminiEnv
  cases get_api_key ctx.env.gemini inp.gemini_key
  · exact traceApp_throwM _
  · exact traceApp_pure _

theorem traceApp_checkKeys {E : Ev → Prop} (ctx : Ctx) (inp : Inputs) :
    TraceApp E (checkTtsKeys ctx inp) := by
  unfold checkTtsKeys
  split
  · exact traceApp_throwM _
  · split
    · exact traceApp_throwM _
    · exact traceApp_pure _

theorem traceApp_cleanup {E : Ev → Prop} : TraceApp E cleanupTemps := by
  unfold cleanupTemps
  refine traceApp_bind traceApp_getS fun s => ?_
  rcases s.loc.temps with _ | ⟨tfs, tds⟩
  · exact traceApp_throwM _
  · exact traceApp_bind (traceApp_remFiles _) fun _ => traceApp_remFiles _

theorem traceApp_branchRun {E : Ev → Prop} (ctx : Ctx) (inp : Inputs)
    (m : MockMode) (fg : String)
    (hw : ∀ p, E (Ev.evWrite p)) (hren : ∀ a b, E (Ev.evRename a b))
    (hg1 : E (Ev.evGen true (decide (inp.word_count > 5000)) none))
    (hg2 : ∀ tf, E (Ev.evGen false false (some tf))) :
    TraceApp E (branchRun ctx inp m fg) := by
  have hga : ∀ r, TraceApp E (genAudioOf r) := by
    intro r
    cases r
    · exact traceApp_pure _
    · exact traceApp_dictGet _ _
  have hgt : ∀ r, TraceApp E (genTranscriptOf r) := by
    intro r
    cases r
    · exact traceApp_pure _
    · exact traceApp_dictGet _ _
  have hgp : ∀ r, TraceApp E (genPromptOf r) := by
    intro r
    cases r
    · exact traceApp_pure _
    · exact traceApp_dictGet _ _
  have hpd : ∀ pc, TraceApp E (parsePromptDetails ctx pc) := by
    intro pc
    unfold parsePromptDetails
    cases ctx.orc.jsonLoadsPrompt pc
    · exact traceApp_throwM _
    · exact traceApp_pure _
  unfold branchRun
  split
  · refine traceApp_bind (traceApp_fsWrite ctx _ (hw _)) fun _ => ?_
    refine traceApp_bind (traceApp_callGen ctx _ _ _ (hg2 _)) fun r => ?_
    exact traceApp_bind (hga r) fun _ => traceApp_pure _
  · exact traceApp_pure _
  · refine traceApp_bind (traceApp_callGen ctx _ _ _ hg1) fun r => ?_
    refine traceApp_bind (hgt r) fun tf0 => ?_
    refine traceApp_bind (traceApp_fsRename ctx _ _ (hren _ _)) fun _ => ?_
    split
    · exact traceApp_pure _
    · refine traceApp_bind (traceApp_callGen ctx _ _ _ (hg2 _)) fun r2 => ?_
      refine traceApp_bind (hga r2) fun _ => ?_
      exact traceApp_bind (traceApp_fsRename ctx _ _ (hren _ _)) fun _ =>
        traceApp_pure _
  · refine traceApp_bind (traceApp_callGen ctx _ _ _ hg1) fun r => ?_
    refine traceApp_bind (hgp r) fun pc => ?_
    refine traceApp_bind (hpd pc) fun _ => ?_
    exact traceApp_bind (traceApp_fsWrite ctx _ (hw _)) fun _ => traceApp_pure _
  · exact traceApp_pure _

theorem traceApp_callbackStep {E : Ev → Prop} (ctx : Ctx) (inp : Inputs)
    (hcb : E Ev.evCallback) : TraceApp E (callbackStep ctx inp) := by
  unfold callbackStep
  split
  · cases ctx.orc.callbackPrep
    · exact traceApp_emit hcb
    · exact traceApp_throwM _
  · exact traceApp_pure _

theorem traceApp_finishRun {E : Ev → Prop} (ctx : Ctx) (inp : Inputs)
    (requestId fg : String) (audio tr : Option String)
    (hsf : E (Ev.evSlackFiles audio tr)) (hw : ∀ p, E (Ev.evWrite p))
    (hnet : ∀ t, E (Ev.evNet t)) (htext : ∀ m, E (Ev.evSlackText m))
    (hcb : E Ev.evCallback) :
    TraceApp E (finishRun ctx inp requestId fg audio tr) := by
  unfold finishRun
  refine traceApp_bind traceApp_cleanup fun _ => ?_
  refine traceApp_bind (traceApp_sendFiles ctx _ _ _ _ hsf hw hnet htext) fun _ => ?_
  exact traceApp_bind (traceApp_callbackStep ctx inp hcb) fun _ => traceApp_pure _

theorem traceApp_logParams {E : Ev → Prop} (inp : Inputs) :
    TraceApp E (logParams inp) := by
  unfold logParams
  by_cases hb : hasBinaryUpload inp = true
  · rw [if_pos hb]
    exact traceApp_throwM _
  · rw [if_neg hb]
    exact traceApp_pure _

theorem traceApp_processBody {E : Ev → Prop} (ctx : Ctx) (inp : Inputs)
    (hbr : TraceApp E (branchRun ctx inp (parse_is_mock inp.is_mock) ctx.orc.fileGroup))
    (hw : ∀ p, E (Ev.evWrite p)) (hmk : ∀ p, E (Ev.evMkdtemp p))
    (hsf : ∀ a t, E (Ev.evSlackFiles a t)) (hnet : ∀ t, E (Ev.evNet t))
    (htext : ∀ m, E (Ev.evSlackText m)) (hcb : E Ev.evCallback) :
    TraceApp E (processBody ctx inp) := by
  unfold processBody
  refine traceApp_bind (traceApp_logParams inp) fun _ => ?_
  refine traceApp_bind (traceApp_setGemini ctx inp) fun _ => ?_
  refine traceApp_bind (traceApp_checkKeys ctx inp) fun _ => ?_
  refine traceApp_bind (traceApp_modifyLoc _) fun _ => ?_
  refine traceApp_bind (traceApp_modifyLoc _) fun _ => ?_
  refine traceApp_bind (traceApp_modifyLoc _) fun _ => ?_
  refine traceApp_bind (traceApp_materializePdfs ctx inp _ hw hmk) fun _ => ?_
  refine traceApp_bind (traceApp_materializeImgs ctx inp hw hmk) fun _ => ?_
  refine traceApp_bind (traceApp_modifyLoc _) fun _ => ?_
  refine traceApp_bind (traceApp_sendFiles ctx _ _ _ _ (hsf _ _) hw hnet htext)
    fun _ => ?_
  refine traceApp_bind hbr fun out => ?_
  exact traceApp_finishRun ctx inp _ _ _ _ (hsf _ _) hw hnet htext hcb

theorem processInputs_eq_ok {ctx : Ctx} {inp : Inputs} {st0 : St} {r : PyRet}
    {s : PState} (hb : processBody ctx inp { loc := locals0, st := st0 } =
      (Except.ok r, s)) : processInputs ctx inp st0 = (Except.ok r, s) := by
  unfold processInputs
  rw [hb]

theorem processInputs_eq_error {ctx : Ctx} {inp : Inputs} {st0 : St} {e : String}
    {s : PState} (hb : processBody ctx inp { loc := locals0, st := st0 } =
      (Except.error e, s)) : processInputs ctx inp st0 = exceptHandler e s := by
  unfold processInputs
  rw [hb]

/-- Full description of the except block: either some local is unbound
and an UnboundLocalError escapes (trace possibly extended by the error
notice, disk untouched), or all locals are bound and it posts the error
notice, removes the recorded temp paths, and returns `str(e)`. -/
theorem exceptHandler_spec (e : String) (s : PState) :
    (∃ m s2, exceptHandler e s = (Except.error m, s2) ∧ s2.st.disk = s.st.disk ∧
      (s2.st.trace = s.st.trace ∨
        ∃ t, s2.st.trace = s.st.trace ++ [Ev.evSlackText t])) ∨
    (∃ t tfs tds, s.loc.temps = some (tfs, tds) ∧
      exceptHandler e s =
        (Except.ok (PyRet.pyStr e),
          { s with st := { s.st with
              trace := s.st.trace ++ [Ev.evSlackText t],
              disk := removeAll (removeAll s.st.disk tfs) tds } })) := by
  obtain ⟨⟨rid, mf, sv, tm⟩, st⟩ := s
  unfold exceptHandler
  cases rid with
  | none => exact Or.inl ⟨_, _, rfl, rfl, Or.inl rfl⟩
  | some rid =>
    cases mf with
    | none => exact Or.inl ⟨_, _, rfl, rfl, Or.inl rfl⟩
    | some mf =>
      cases sv with
      | false => exact Or.inl ⟨_, _, rfl, rfl, Or.inl rfl⟩
      | true =>
          cases tm with
          | none => exact Or.inl ⟨_, _, rfl, rfl, Or.inr ⟨_, rfl⟩⟩
          | some pair =>
              obtain ⟨tfs, tds⟩ := pair
              exact Or.inr ⟨_, tfs, tds, rfl, rfl⟩

theorem traceApp_processInputs {E : Ev → Prop} (ctx : Ctx) (inp : Inputs)
    (hbody : TraceApp E (processBody ctx inp))
    (htext : ∀ m, E (Ev.evSlackText m)) (st0 : St) :
    ∃ l, (processInputs ctx inp st0).2.st.trace = st0.trace ++ l ∧ ∀ ev ∈ l, E ev := by
  rcases hb : processBody ctx inp { loc := locals0, st := st0 } with ⟨v, s⟩
  have hs := hbody _ _ _ hb
  obtain ⟨l, hl, hE⟩ := hs
  cases v with
  | ok r =>
      rw [processInputs_eq_ok hb]
      exact ⟨l, hl, hE⟩
  | error e =>
      rw [processInputs_eq_error hb]
      rcases exceptHandler_spec e s with
        ⟨m, s2, heq, _, htr | ⟨t, htr⟩⟩ | ⟨t, tfs, tds, _, heq⟩
      · rw [heq]
        exact ⟨l, by rw [htr, hl], hE⟩
      · rw [heq]
        refine ⟨l ++ [Ev.evSlackText t], ?_, ?_⟩
        · rw [htr, hl, List.append_assoc]
        · intro ev hev
          rcases List.mem_append.mp hev with hev | hev
          · exact hE ev hev
          · simp only [List.mem_singleton] at hev
            rw [hev]
            exact htext _
      · rw [heq]
        refine ⟨l ++ [Ev.evSlackText t], ?_, ?_⟩
        · simp only []
          rw [hl, List.append_assoc]
        · intro ev hev
          rcases List.mem_append.mp hev with hev | hev
          · exact hE ev hev
          · simp only [List.mem_singleton] at hev
            rw [hev]
            exact htext _

/-! ### Success-path decomposition -/

theorem sendFiles_event {ctx : Ctx} {u fg : String} {a t : Option String}
    {s : PState} {r : Except String (Option Unit)} {s' : PState}
    (h : send_files_to_slack ctx u fg a t s = (r, s')) :
    Ev.evSlackFiles a t ∈ s'.st.trace := by
  unfold send_files_to_slack at h
  rcases bind_cases h with ⟨e, s1, hx, hout⟩ | ⟨a1, s1, hx, h⟩
  · rw [run_emit] at hx
    exact absurd hx (by simp)
  · rw [run_emit] at hx
    injection hx with hx1 hx2
    have hmem : Ev.evSlackFiles a t ∈ s1.st.trace := by
      rw [← hx2]
      simp
    have hrest : TraceApp (fun _ => True)
        (fsWrite ctx (inputParamsPath fg) >>= fun _ =>
          tryCatchM (slackTryBody ctx fg a t) (slackErrHandler u)) := by
      refine traceApp_bind (traceApp_fsWrite ctx _ trivial) fun _ => ?_
      exact traceApp_tryCatch
        (traceApp_slackTryBody ctx fg a t fun _ => trivial)
        (traceApp_slackErrHandler u fun _ => trivial)
    obtain ⟨l, hl, -⟩ := hrest s1 r s' h
    rw [hl]
    exact List.mem_append_left _ hmem

theorem finishRun_ok {ctx : Ctx} {inp : Inputs} {rid fg : String}
    {audio tr : Option String} {s : PState} {r : PyRet} {s' : PState}
    (h : finishRun ctx inp rid fg audio tr s = (Except.ok r, s')) :
    r = retOf audio ∧ Ev.evSlackFiles audio tr ∈ s'.st.trace := by
  unfold finishRun at h
  obtain ⟨a1, s1, h1, h⟩ := bind_ok h
  obtain ⟨a2, s2, h2, h⟩ := bind_ok h
  have hev : Ev.evSlackFiles audio tr ∈ s2.st.trace := sendFiles_event h2
  obtain ⟨a3, s3, h3, h⟩ := bind_ok h
  have hs3 : Ev.evSlackFiles audio tr ∈ s3.st.trace := by
    obtain ⟨l, hl, -⟩ :=
      traceApp_callbackStep (E := fun _ => True) ctx inp trivial s2 _ _ h3
    rw [hl]
    exact List.mem_append_left _ hev
  rw [run_pure] at h
  injection h with hr hs
  injection hr with hr
  refine ⟨hr.symm, ?_⟩
  rw [← hs]
  exact hs3

theorem processBody_ok_split {ctx : Ctx} {inp : Inputs} {s0 : PState} {r : PyRet}
    {s' : PState} (h : processBody ctx inp s0 = (Except.ok r, s')) :
    ∃ sPre out sB,
      branchRun ctx inp (parse_is_mock inp.is_mock) ctx.orc.fileGroup sPre =
        (Except.ok out, sB) ∧
      finishRun ctx inp
        (if inp.request_id = "" then ctx.orc.fileGroup else inp.request_id)
        ctx.orc.fileGroup out.1 out.2.1 sB = (Except.ok r, s') := by
  unfold processBody at h
  obtain ⟨a0, s0a, h0, h⟩ := bind_ok h
  obtain ⟨a1, s1, h1, h⟩ := bind_ok h
  obtain ⟨a2, s2, h2, h⟩ := bind_ok h
  obtain ⟨a3, s3, h3, h⟩ := bind_ok h
  obtain ⟨a4, s4, h4, h⟩ := bind_ok h
  obtain ⟨a5, s5, h5, h⟩ := bind_ok h
  obtain ⟨a6, s6, h6, h⟩ := bind_ok h
  obtain ⟨a7, s7, h7, h⟩ := bind_ok h
  obtain ⟨a8, s8, h8, h⟩ := bind_ok h
  obtain ⟨a9, s9, h9, h⟩ := bind_ok h
  obtain ⟨out, sB, hbr, h⟩ := bind_ok h
  exact ⟨s9, out, sB, hbr, h⟩

theorem branchYes_ok {ctx : Ctx} {inp : Inputs} {m : MockMode} {fg : String}
    {s : PState} {out : Option String × Option String × Option String}
    {s' : PState} (hd : dispatch m = BranchTag.bYes)
    (h : branchRun ctx inp m fg s = (Except.ok out, s')) :
    out = (some cannedAudio, some cannedTranscript, none) ∧ s' = s := by
  unfold branchRun at h
  rw [hd] at h
  have h' : (pure (some cannedAudio, some cannedTranscript, none) :
      M (Option String × Option String × Option String)) s = (Except.ok out, s') := h
  rw [run_pure] at h'
  injection h' with h1 h2
  injection h1 with h1
  exact ⟨h1.symm, h2.symm⟩

theorem branchTranscript_ok {ctx : Ctx} {inp : Inputs} {m : MockMode} {fg : String}
    {s : PState} {out : Option String × Option String × Option String}
    {s' : PState} (hm : m = MockMode.Transcript)
    (h : branchRun ctx inp m fg s = (Except.ok out, s')) :
    out = (none, some (transcriptPathOf fg), none) := by
  have hd : dispatch m = BranchTag.bTranscriptNo := by
    rw [hm]
    rfl
  unfold branchRun at h
  rw [hd] at h
  obtain ⟨rg, s1, h1, h⟩ := bind_ok h
  obtain ⟨tf0, s2, h2, h⟩ := bind_ok h
  obtain ⟨a3, s3, h3, h⟩ := bind_ok h
  rw [if_pos hm] at h
  rw [run_pure] at h
  injection h with hj1 hj2
  injection hj1 with hj1
  exact hj1.symm

theorem branchPrompt_ok {ctx : Ctx} {inp : Inputs} {m : MockMode} {fg : String}
    {s : PState} {out : Option String × Option String × Option String}
    {s' : PState} (hd : dispatch m = BranchTag.bPromptOnly)
    (h : branchRun ctx inp m fg s = (Except.ok out, s')) :
    out = (none, none, some (promptPathOf fg)) := by
  unfold branchRun at h
  rw [hd] at h
  obtain ⟨rg, s1, h1, h⟩ := bind_ok h
  obtain ⟨pc, s2, h2, h⟩ := bind_ok h
  obtain ⟨a3, s3, h3, h⟩ := bind_ok h
  obtain ⟨a4, s4, h4, h⟩ := bind_ok h
  rw [run_pure] at h
  injection h with hj1 hj2
  injection hj1 with hj1
  exact hj1.symm

/-! ### Stepwise evaluation of the concrete witness runs -/

theorem wRunYes : processBody ctxW inpBase (wPre0 st0Empty) =
    (Except.ok (PyRet.pyStr cannedAudio), wSYesF) := by
  unfold processBody
  rw [bind_ok_step (show logParams inpBase (wPre0 st0Empty) =
    (Except.ok (), wPre0 st0Empty) from rfl)]
  rw [bind_ok_step (show setGeminiEnv ctxW inpBase (wPre0 st0Empty) =
    (Except.ok (), wPre0 st0Empty) from rfl)]
  rw [bind_ok_step (show checkTtsKeys ctxW inpBase (wPre0 st0Empty) =
    (Except.ok (), wPre0 st0Empty) from rfl)]
  rw [bind_ok_step (show (modifyLoc fun l => { l with slackVars := true })
    (wPre0 st0Empty) = (Except.ok (), wPreA st0Empty) from rfl)]
  rw [show (if inpBase.request_id = "" then ctxW.orc.fileGroup
    else inpBase.request_id) = "g1" from rfl]
  rw [show ctxW.orc.fileGroup = "g1" from rfl]
  rw [show parse_is_mock inpBase.is_mock = MockMode.Yes from rfl]
  rw [bind_ok_step (show (modifyLoc fun l => { l with requestId := some "g1" })
    (wPreA st0Empty) = (Except.ok (), wPreB st0Empty) from rfl)]
  rw [bind_ok_step (show (modifyLoc fun l => { l with temps := some ([], []) })
    (wPreB st0Empty) = (Except.ok (), wPreC st0Empty) from rfl)]
  rw [bind_ok_step (show materializePdfs ctxW inpBase
    (parse_urls inpBase.urls_input) (wPreC st0Empty) =
    (Except.ok (parse_urls inpBase.urls_input), wPreC st0Empty) from rfl)]
  rw [bind_ok_step (show materializeImgs ctxW inpBase (wPreC st0Empty) =
    (Except.ok [], wPreC st0Empty) from rfl)]
  rw [show mockFlagOf MockMode.Yes = "[MOCK RUN]" from rfl]
  rw [bind_ok_step
    (show (modifyLoc fun l => { l with mock_flag := some "[MOCK RUN]" })
      (wPreC st0Empty) = (Except.ok (), wPreD st0Empty "[MOCK RUN]") from rfl)]
  rw [bind_ok_step (show send_files_to_slack ctxW "g1" "g1" none none
    (wPreD st0Empty "[MOCK RUN]") =
    (Except.ok (some ()), wSE "[MOCK RUN]") from rfl)]
  rw [bind_ok_step (show branchRun ctxW inpBase MockMode.Yes "g1"
    (wSE "[MOCK RUN]") =
    (Except.ok (some cannedAudio, some cannedTranscript, none),
      wSE "[MOCK RUN]") from rfl)]
  rfl

theorem wRunTr2000 : processBody ctxW inpTr2000 (wPre0 st0Empty) =
    (Except.ok PyRet.pyNone, wSTrF false) := by
  unfold processBody
  rw [bind_ok_step (show logParams inpTr2000 (wPre0 st0Empty) =
    (Except.ok (), wPre0 st0Empty) from rfl)]
  rw [bind_ok_step (show setGeminiEnv ctxW inpTr2000 (wPre0 st0Empty) =
    (Except.ok (), wPre0 st0Empty) from rfl)]
  rw [bind_ok_step (show checkTtsKeys ctxW inpTr2000 (wPre0 st0Empty) =
    (Except.ok (), wPre0 st0Empty) from rfl)]
  rw [bind_ok_step (show (modifyLoc fun l => { l with slackVars := true })
    (wPre0 st0Empty) = (Except.ok (), wPreA st0Empty) from rfl)]
  rw [show (if inpTr2000.request_id = "" then ctxW.orc.fileGroup
    else inpTr2000.request_id) = "g1" from rfl]
  rw [show ctxW.orc.fileGroup = "g1" from rfl]
  rw [show parse_is_mock inpTr2000.is_mock = MockMode.Transcript from rfl]
  rw [bind_ok_step (show (modifyLoc fun l => { l with requestId := some "g1" })
    (wPreA st0Empty) = (Except.ok (), wPreB st0Empty) from rfl)]
  rw [bind_ok_step (show (modifyLoc fun l => { l with temps := some ([], []) })
    (wPreB st0Empty) = (Except.ok (), wPreC st0Empty) from rfl)]
  rw [bind_ok_step (show materializePdfs ctxW inpTr2000
    (parse_urls inpTr2000.urls_input) (wPreC st0Empty) =
    (Except.ok (parse_urls inpTr2000.urls_input), wPreC st0Empty) from rfl)]
  rw [bind_ok_step (show materializeImgs ctxW inpTr2000 (wPreC st0Empty) =
    (Except.ok [], wPreC st0Empty) from rfl)]
  rw [show mockFlagOf MockMode.Transcript = "[TRANSCRIPT ONLY]" from rfl]
  rw [bind_ok_step
    (show (modifyLoc fun l => { l with mock_flag := some "[TRANSCRIPT ONLY]" })
      (wPreC st0Empty) =
      (Except.ok (), wPreD st0Empty "[TRANSCRIPT ONLY]") from rfl)]
  rw [bind_ok_step (show send_files_to_slack ctxW "g1" "g1" none none
    (wPreD st0Empty "[TRANSCRIPT ONLY]") =
    (Except.ok (some ()), wSE "[TRANSCRIPT ONLY]") from rfl)]
  rw [bind_ok_step (show branchRun ctxW inpTr2000 MockMode.Transcript "g1"
    (wSE "[TRANSCRIPT ONLY]") =
    (Except.ok ((none : Option String), some (transcriptPathOf "g1"),
      (none : Option String)), wSTrB false) from rfl)]
  rfl

theorem wRunTr6000 : processBody ctxW inpTr6000 (wPre0 st0Empty) =
    (Except.ok PyRet.pyNone, wSTrF true) := by
  unfold processBody
  rw [bind_ok_step (show logParams inpTr6000 (wPre0 st0Empty) =
    (Except.ok (), wPre0 st0Empty) from rfl)]
  rw [bind_ok_step (show setGeminiEnv ctxW inpTr6000 (wPre0 st0Empty) =
    (Except.ok (), wPre0 st0Empty) from rfl)]
  rw [bind_ok_step (show checkTtsKeys ctxW inpTr6000 (wPre0 st0Empty) =
    (Except.ok (), wPre0 st0Empty) from rfl)]
  rw [bind_ok_step (show (modifyLoc fun l => { l with slackVars := true })
    (wPre0 st0Empty) = (Except.ok (), wPreA st0Empty) from rfl)]
  rw [show (if inpTr6000.request_id = "" then ctxW.orc.fileGroup
    else inpTr6000.request_id) = "g1" from rfl]
  rw [show ctxW.orc.fileGroup = "g1" from rfl]
  rw [show parse_is_mock inpTr6000.is_mock = MockMode.Transcript from rfl]
  rw [bind_ok_step (show (modifyLoc fun l => { l with requestId := some "g1" })
    (wPreA st0Empty) = (Except.ok (), wPreB st0Empty) from rfl)]
  rw [bind_ok_step (show (modifyLoc fun l => { l with temps := some ([], []) })
    (wPreB st0Empty) = (Except.ok (), wPreC st0Empty) from rfl)]
  rw [bind_ok_step (show materializePdfs ctxW inpTr6000
    (parse_urls inpTr6000.urls_input) (wPreC st0Empty) =
    (Except.ok (parse_urls inpTr6000.urls_input), wPreC st0Empty) from rfl)]
  rw [bind_ok_step (show materializeImgs ctxW inpTr6000 (wPreC st0Empty) =
    (Except.ok [], wPreC st0Empty) from rfl)]
  rw [show mockFlagOf MockMode.Transcript = "[TRANSCRIPT ONLY]" from rfl]
  rw [bind_ok_step
    (show (modifyLoc fun l => { l with mock_flag := some "[TRANSCRIPT ONLY]" })
      (wPreC st0Empty) =
      (Except.ok (), wPreD st0Empty "[TRANSCRIPT ONLY]") from rfl)]
  rw [bind_ok_step (show send_files_to_slack ctxW "g1" "g1" none none
    (wPreD st0Empty "[TRANSCRIPT ONLY]") =
    (Except.ok (some ()), wSE "[TRANSCRIPT ONLY]") from rfl)]
  rw [bind_ok_step (show branchRun ctxW inpTr6000 MockMode.Transcript "g1"
    (wSE "[TRANSCRIPT ONLY]") =
    (Except.ok ((none : Option String), some (transcriptPathOf "g1"),
      (none : Option String)), wSTrB true) from rfl)]
  rfl

theorem wRunPrompt : processBody ctxW inpPrompt (wPre0 st0Empty) =
    (Except.ok PyRet.pyNone, wSPrF) := by
  unfold processBody
  rw [bind_ok_step (show logParams inpPrompt (wPre0 st0Empty) =
    (Except.ok (), wPre0 st0Empty) from rfl)]
  rw [bind_ok_step (show setGeminiEnv ctxW inpPrompt (wPre0 st0Empty) =
    (Except.ok (), wPre0 st0Empty) from rfl)]
  rw [bind_ok_step (show checkTtsKeys ctxW inpPrompt (wPre0 st0Empty) =
    (Except.ok (), wPre0 st0Empty) from rfl)]
  rw [bind_ok_step (show (modifyLoc fun l => { l with slackVars := true })
    (wPre0 st0Empty) = (Except.ok (), wPreA st0Empty) from rfl)]
  rw [show (if inpPrompt.request_id = "" then ctxW.orc.fileGroup
    else inpPrompt.request_id) = "g1" from rfl]
  rw [show ctxW.orc.fileGroup = "g1" from rfl]
  rw [show parse_is_mock inpPrompt.is_mock = MockMode.PromptOnly from rfl]
  rw [bind_ok_step (show (modifyLoc fun l => { l with requestId := some "g1" })
    (wPreA st0Empty) = (Except.ok (), wPreB st0Empty) from rfl)]
  rw [bind_ok_step (show (modifyLoc fun l => { l with temps := some ([], []) })
    (wPreB st0Empty) = (Except.ok (), wPreC st0Empty) from rfl)]
  rw [bind_ok_step (show materializePdfs ctxW inpPrompt
    (parse_urls inpPrompt.urls_input) (wPreC st0Empty) =
    (Except.ok (parse_urls inpPrompt.urls_input), wPreC st0Empty) from rfl)]
  rw [bind_ok_step (show materializeImgs ctxW inpPrompt (wPreC st0Empty) =
    (Except.ok [], wPreC st0Empty) from rfl)]
  rw [show mockFlagOf MockMode.PromptOnly = "[PROMPT ONLY RUN]" from rfl]
  rw [bind_ok_step
    (show (modifyLoc fun l => { l with mock_flag := some "[PROMPT ONLY RUN]" })
      (wPreC st0Empty) =
      (Except.ok (), wPreD st0Empty "[PROMPT ONLY RUN]") from rfl)]
  rw [bind_ok_step (show send_files_to_slack ctxW "g1" "g1" none none
    (wPreD st0Empty "[PROMPT ONLY RUN]") =
    (Except.ok (some ()), wSE "[PROMPT ONLY RUN]") from rfl)]
  rw [bind_ok_step (show branchRun ctxW inpPrompt MockMode.PromptOnly "g1"
    (wSE "[PROMPT ONLY RUN]") =
    (Except.ok ((none : Option String), (none : Option String),
      some (promptPathOf "g1")), wSPrB) from rfl)]
  rfl

theorem wRunPutFail : processBody ctxPutFail inpBase (wPre0 st0C8) =
    (Except.ok (PyRet.pyStr cannedAudio), wSPutF) := by
  unfold processBody
  rw [bind_ok_step (show logParams inpBase (wPre0 st0C8) =
    (Except.ok (), wPre0 st0C8) from rfl)]
  rw [bind_ok_step (show setGeminiEnv ctxPutFail inpBase (wPre0 st0C8) =
    (Except.ok (), wPre0 st0C8) from rfl)]
  rw [bind_ok_step (show checkTtsKeys ctxPutFail inpBase (wPre0 st0C8) =
    (Except.ok (), wPre0 st0C8) from rfl)]
  rw [bind_ok_step (show (modifyLoc fun l => { l with slackVars := true })
    (wPre0 st0C8) = (Except.ok (), wPreA st0C8) from rfl)]
  rw [show (if inpBase.request_id = "" then ctxPutFail.orc.fileGroup
    else inpBase.request_id) = "g1" from rfl]
  rw [show ctxPutFail.orc.fileGroup = "g1" from rfl]
  rw [show parse_is_mock inpBase.is_mock = MockMode.Yes from rfl]
  rw [bind_ok_step (show (modifyLoc fun l => { l with requestId := some "g1" })
    (wPreA st0C8) = (Except.ok (), wPreB st0C8) from rfl)]
  rw [bind_ok_step (show (modifyLoc fun l => { l with temps := some ([], []) })
    (wPreB st0C8) = (Except.ok (), wPreC st0C8) from rfl)]
  rw [bind_ok_step (show materializePdfs ctxPutFail inpBase
    (parse_urls inpBase.urls_input) (wPreC st0C8) =
    (Except.ok (parse_urls inpBase.urls_input), wPreC st0C8) from rfl)]
  rw [bind_ok_step (show materializeImgs ctxPutFail inpBase (wPreC st0C8) =
    (Except.ok [], wPreC st0C8) from rfl)]
  rw [show mockFlagOf MockMode.Yes = "[MOCK RUN]" from rfl]
  rw [bind_ok_step
    (show (modifyLoc fun l => { l with mock_flag := some "[MOCK RUN]" })
      (wPreC st0C8) = (Except.ok (), wPreD st0C8 "[MOCK RUN]") from rfl)]
  rw [bind_ok_step (show send_files_to_slack ctxPutFail "g1" "g1" none none
    (wPreD st0C8 "[MOCK RUN]") = (Except.ok (some ()), wSEputf) from rfl)]
  rw [bind_ok_step (show branchRun ctxPutFail inpBase MockMode.Yes "g1"
    wSEputf = (Except.ok (some cannedAudio, some cannedTranscript, none),
      wSEputf) from rfl)]
  rfl

/-- Claim C6: every transcript-phase `generate_podcast` call recorded in a
run's trace (lines 348-358, used by the Transcript and No branches) carries
a longform flag equal to the test `word_count > 5000`. -/
theorem claim_C6_longform (ctx : Ctx) (inp : Inputs) (st0 : St)
    (h0 : st0.trace = []) :
    ∀ lf tf, Ev.evGen true lf tf ∈ (processInputs ctx inp st0).2.st.trace →
      lf = decide (inp.word_count > 5000) := by
  have hbody : TraceApp (fun ev => ∀ lf tf, ev = Ev.evGen true lf tf →
      lf = decide (inp.word_count > 5000)) (processBody ctx inp) := by
    apply traceApp_processBody
    · apply traceApp_branchRun
      · intro p lf tf hfalse
        exact Ev.noConfusion hfalse
      · intro a b lf tf hfalse
        exact Ev.noConfusion hfalse
      · intro lf tf heq
        injection heq with h1 h2 h3
        exact h2.symm
      · intro tfv lf tf heq
        injection heq with h1 h2 h3
        exact Bool.noConfusion h1
    · intro p lf tf hfalse
      exact Ev.noConfusion hfalse
    · intro p lf tf hfalse
      exact Ev.noConfusion hfalse
    · intro a t lf tf hfalse
      exact Ev.noConfusion hfalse
    · intro t lf tf hfalse
      exact Ev.noConfusion hfalse
    · intro m lf tf hfalse
      exact Ev.noConfusion hfalse
    · intro lf tf hfalse
      exact Ev.noConfusion hfalse
  obtain ⟨l, hl, hE⟩ := traceApp_processInputs ctx inp hbody
    (fun m lf tf hfalse => Ev.noConfusion hfalse) st0
  intro lf tf hmem
  rw [hl, h0, List.nil_append] at hmem
  exact hE _ hmem lf tf rfl

/-- Witness for C6: a Transcript run at word_count 6000 records longform
true, and at word_count 2000 records longform false. -/
theorem claim_C6_longform_witness :
    (Ev.evGen true true none ∈ (processInputs ctxW inpTr6000 st0Empty).2.st.trace ∧
      true = decide (inpTr6000.word_count > 5000)) ∧
    (Ev.evGen true false none ∈ (processInputs ctxW inpTr2000 st0Empty).2.st.trace ∧
      false = decide (inpTr2000.word_count > 5000)) := by
  have h6 : processInputs ctxW inpTr6000 st0Empty =
      (Except.ok PyRet.pyNone, wSTrF true) :=
    processInputs_eq_ok wRunTr6000
  have h2 : processInputs ctxW inpTr2000 st0Empty =
      (Except.ok PyRet.pyNone, wSTrF false) :=
    processInputs_eq_ok wRunTr2000
  have m6 : Ev.evGen true true none ∈
      (processInputs ctxW inpTr6000 st0Empty).2.st.trace := by
    rw [h6]
    decide
  have m2 : Ev.evGen true false none ∈
      (processInputs ctxW inpTr2000 st0Empty).2.st.trace := by
    rw [h2]
    decide
  exact ⟨⟨m6, claim_C6_longform ctxW inpTr6000 st0Empty rfl true none m6⟩,
    ⟨m2, claim_C6_longform ctxW inpTr2000 st0Empty rfl false none m2⟩⟩

/-- Claim C7: when the resolved mock mode is Yes, no `generate_podcast`
call is ever recorded, and a successful run returns the canned audio path
while recording the canned transcript path in the COMPLETED Slack upload. -/
theorem claim_C7_mock_yes (ctx : Ctx) (inp : Inputs) (st0 : St)
    (hm : parse_is_mock inp.is_mock = MockMode.Yes) (h0 : st0.trace = []) :
    (∀ tOnly lf tf, Ev.evGen tOnly lf tf ∉ (processInputs ctx inp st0).2.st.trace) ∧
    (∀ r s', processBody ctx inp { loc := locals0, st := st0 } =
        (Except.ok r, s') →
      r = PyRet.pyStr cannedAudio ∧
      processInputs ctx inp st0 = (Except.ok (PyRet.pyStr cannedAudio), s') ∧
      Ev.evSlackFiles (some cannedAudio) (some cannedTranscript) ∈
        s'.st.trace) := by
  constructor
  · have hbody : TraceApp (fun ev => ∀ tOnly lf tf, ev ≠ Ev.evGen tOnly lf tf)
        (processBody ctx inp) := by
      apply traceApp_processBody
      · rw [hm]
        exact traceApp_pure _
      · intro p tOnly lf tf hfalse
        exact Ev.noConfusion hfalse
      · intro p tOnly lf tf hfalse
        exact Ev.noConfusion hfalse
      · intro a t tOnly lf tf hfalse
        exact Ev.noConfusion hfalse
      · intro t tOnly lf tf hfalse
        exact Ev.noConfusion hfalse
      · intro m tOnly lf tf hfalse
        exact Ev.noConfusion hfalse
      · intro tOnly lf tf hfalse
        exact Ev.noConfusion hfalse
    obtain ⟨l, hl, hE⟩ := traceApp_processInputs ctx inp hbody
      (fun m tOnly lf tf hfalse => Ev.noConfusion hfalse) st0
    intro tOnly lf tf hmem
    rw [hl, h0, List.nil_append] at hmem
    exact hE _ hmem tOnly lf tf rfl
  · intro r s' h
    obtain ⟨sPre, out, sB, hbr, hfin⟩ := processBody_ok_split h
    have hd : dispatch (parse_is_mock inp.is_mock) = BranchTag.bYes := by
      rw [hm]
      rfl
    obtain ⟨hout, -⟩ := branchYes_ok hd hbr
    obtain ⟨hret, hev⟩ := finishRun_ok hfin
    subst hout
    refine ⟨?_, ?_, ?_⟩
    · rw [hret]
      rfl
    · rw [processInputs_eq_ok h, hret]
      rfl
    · exact hev

/-- Witness for C7: the concrete Yes-mode run returns the canned audio
path, records the canned pair in the Slack upload, and its trace holds no
generation event. -/
theorem claim_C7_mock_yes_witness :
    Ev.evGen false false none ∉
      (processInputs ctxW inpBase st0Empty).2.st.trace ∧
    processInputs ctxW inpBase st0Empty =
      (Except.ok (PyRet.pyStr cannedAudio), wSYesF) ∧
    Ev.evSlackFiles (some cannedAudio) (some cannedTranscript) ∈
      wSYesF.st.trace := by
  have h := claim_C7_mock_yes ctxW inpBase st0Empty (by rfl) rfl
  obtain ⟨hr, hpi, hev⟩ := h.2 (PyRet.pyStr cannedAudio) wSYesF wRunYes
  exact ⟨h.1 false false none, hpi, hev⟩

/-- Claim C10: a successful run in Transcript or PromptOnly mode returns
Python None (the never-assigned audio_file), while the produced
transcript/prompt path is carried only by the Slack side channel. -/
theorem claim_C10_returns_none (ctx : Ctx) (inp : Inputs) (st0 : St)
    (hm : parse_is_mock inp.is_mock = MockMode.Transcript ∨
      parse_is_mock inp.is_mock = MockMode.PromptOnly) :
    ∀ r s', processBody ctx inp { loc := locals0, st := st0 } =
        (Except.ok r, s') →
      r = PyRet.pyNone ∧
      processInputs ctx inp st0 = (Except.ok PyRet.pyNone, s') ∧
      (parse_is_mock inp.is_mock = MockMode.Transcript →
        Ev.evSlackFiles none (some (transcriptPathOf ctx.orc.fileGroup)) ∈
          s'.st.trace) ∧
      (parse_is_mock inp.is_mock = MockMode.PromptOnly →
        Ev.evSlackFiles none none ∈ s'.st.trace) := by
  intro r s' h
  obtain ⟨sPre, out, sB, hbr, hfin⟩ := processBody_ok_split h
  obtain ⟨hret, hev⟩ := finishRun_ok hfin
  rcases hm with hm | hm
  · obtain hout := branchTranscript_ok hm hbr
    subst hout
    refine ⟨?_, ?_, ?_, ?_⟩
    · rw [hret]
      rfl
    · rw [processInputs_eq_ok h, hret]
      rfl
    · intro _
      exact hev
    · intro hp
      rw [hm] at hp
      exact absurd hp (by decide)
  · have hd : dispatch (parse_is_mock inp.is_mock) = BranchTag.bPromptOnly := by
      rw [hm]
      rfl
    obtain hout := branchPrompt_ok hd hbr
    subst hout
    refine ⟨?_, ?_, ?_, ?_⟩
    · rw [hret]
      rfl
    · rw [processInputs_eq_ok h, hret]
      rfl
    · intro ht
      rw [hm] at ht
      exact absurd ht (by decide)
    · intro _
      exact hev

/-- Witness for C10: the concrete Transcript and PromptOnly runs both
return Python None while the transcript (resp. prompt) upload event sits
in the final trace. -/
theorem claim_C10_returns_none_witness :
    processInputs ctxW inpTr2000 st0Empty =
      (Except.ok PyRet.pyNone, wSTrF false) ∧
    Ev.evSlackFiles none (some (transcriptPathOf "g1")) ∈
      (wSTrF false).st.trace ∧
    processInputs ctxW inpPrompt st0Empty = (Except.ok PyRet.pyNone, wSPrF) ∧
    Ev.evSlackFiles none none ∈ wSPrF.st.trace := by
  have h1 := claim_C10_returns_none ctxW inpTr2000 st0Empty (Or.inl (by rfl))
    PyRet.pyNone (wSTrF false) wRunTr2000
  have h2 := claim_C10_returns_none ctxW inpPrompt st0Empty (Or.inr (by rfl))
    PyRet.pyNone wSPrF wRunPrompt
  exact ⟨h1.2.1, h1.2.2.1 (by rfl), h2.2.1, h2.2.2.2 (by rfl)⟩

/-- A successful write: the path appears on disk and the event is traced. -/
theorem fsWrite_ok {ctx : Ctx} {path : String}
    (hw : ctx.orc.writeRes path = none) (s : PState) :
    fsWrite ctx path s = (Except.ok (),
      { s with st := { s.st with trace := s.st.trace ++ [Ev.evWrite path], disk := path :: s.st.disk } }) := by
  unfold fsWrite
  rw [hw]
  rfl

/-- A try/except whose handler never raises never raises itself. -/
theorem tryCatch_contained {α : Type} (body : M α) (handler : String → M α)
    (hh : ∀ e s0, ∃ v s', handler e s0 = (Except.ok v, s')) (s : PState) :
    ∃ v s', tryCatchM body handler s = (Except.ok v, s') := by
  rcases hb : body s with ⟨rb, s1⟩
  cases rb with
  | ok a => exact ⟨a, s1, run_tryCatch_ok hb⟩
  | error e =>
      obtain ⟨v, s', hv⟩ := hh e s1
      exact ⟨v, s', (run_tryCatch_error hb).trans hv⟩

/-- When the pre-try `input_params` write succeeds, `send_files_to_slack`
never raises: every failure of the three-step upload is swallowed by its
own except handlers. -/
theorem sendFiles_contained (ctx : Ctx) (uuid fg : String)
    (audio tr : Option String) (s : PState)
    (hw : ctx.orc.writeRes (inputParamsPath fg) = none) :
    ∃ v s', send_files_to_slack ctx uuid fg audio tr s = (Except.ok v, s') := by
  obtain ⟨v, s', hv⟩ := tryCatch_contained (slackTryBody ctx fg audio tr)
    (slackErrHandler uuid) (fun e s0 => ⟨none, _, rfl⟩)
    { s with st := { s.st with
        trace := (s.st.trace ++ [Ev.evSlackFiles audio tr]) ++
          [Ev.evWrite (inputParamsPath fg)],
        disk := inputParamsPath fg :: s.st.disk } }
  refine ⟨v, s', ?_⟩
  unfold send_files_to_slack
  rw [bind_ok_step (run_emit (Ev.evSlackFiles audio tr) s)]
  rw [bind_ok_step (fsWrite_ok hw _)]
  exact hv

/-- Claim C8: failures inside the Slack upload protocol are contained by
send_files_to_slack itself (whenever the pre-try input_params write
succeeds, the call never raises), and concretely a non-200 PUT response
on the COMPLETED upload still lets process_inputs return its successful
canned-audio result, leaving only the best-effort text notice in the
trace. -/
theorem claim_C8_slack_failure_contained :
    (∀ (ctx : Ctx) (uuid fg : String) (audio tr : Option String) (s : PState),
        ctx.orc.writeRes (inputParamsPath fg) = none →
        ∃ v s', send_files_to_slack ctx uuid fg audio tr s = (Except.ok v, s')) ∧
    ctxPutFail.orc.slackPutRes 1 "audio" = PutRes.putCode 404 ∧
    processInputs ctxPutFail inpBase st0C8 =
      (Except.ok (PyRet.pyStr cannedAudio), wSPutF) ∧
    Ev.evSlackText "[g1][ERROR] audio upload failed with status code" ∈
      wSPutF.st.trace := by
  refine ⟨fun ctx uuid fg audio tr s hw =>
      sendFiles_contained ctx uuid fg audio tr s hw,
    by decide, processInputs_eq_ok wRunPutFail, by decide⟩

/-- Witness for C8: the containment theorem applied at the concrete
failing-PUT context and state. -/
theorem claim_C8_slack_failure_contained_witness :
    ctxPutFail.orc.writeRes (inputParamsPath "g1") = none ∧
    (∃ v s', send_files_to_slack ctxPutFail "g1" "g1" (some cannedAudio)
        (some cannedTranscript) (wPre0 st0C8) = (Except.ok v, s')) :=
  ⟨rfl, claim_C8_slack_failure_contained.1 ctxPutFail "g1" "g1"
    (some cannedAudio) (some cannedTranscript) (wPre0 st0C8) rfl⟩

/-! ### Temp-file cleanup machinery (claim C2) -/

theorem mem_removeAll {q : String} : ∀ (l d : List String),
    q ∈ removeAll d l ↔ q ∈ d ∧ q ∉ l := by
  intro l
  induction l with
  | nil =>
      intro d
      simp [removeAll]
  | cons p r ih =>
      intro d
      simp only [removeAll]
      rw [ih]
      simp only [List.mem_filter, List.mem_cons, decide_eq_true_eq]
      constructor
      · rintro ⟨⟨hd2, hne⟩, hnr⟩
        exact ⟨hd2, fun hc => hc.elim hne hnr⟩
      · rintro ⟨hd2, hn⟩
        exact ⟨⟨hd2, fun he => hn (Or.inl he)⟩, fun hr => hn (Or.inr hr)⟩

theorem tracked_carry {s s2 : PState} (ht : s2.loc.temps = s.loc.temps)
    {q : String} : tracked s q → tracked s2 q := by
  rintro ⟨a, b, hab, hm⟩
  exact ⟨a, b, ht.trans hab, hm⟩

theorem c2inv_of_noC {C : List String} {s : PState} (h : NoC C s) :
    C2Inv C s := by
  intro p hp hpC
  exact absurd hpC (h p hp)

theorem invT_carry {C : List String} {s s2 : PState}
    (hd : s2.st.disk = s.st.disk) (ht : s2.loc.temps = s.loc.temps)
    (hI : InvT C s) : InvT C s2 := by
  obtain ⟨hinv, tfs, tds, htm⟩ := hI
  refine ⟨?_, tfs, tds, ht.trans htm⟩
  intro p hp hpC
  rw [hd] at hp
  exact tracked_carry ht (hinv p hp hpC)

theorem invT_write {C : List String} {s s2 : PState} {p : String}
    (hd : s2.st.disk = p :: s.st.disk) (ht : s2.loc.temps = s.loc.temps)
    (hp : p ∉ C ∨ tracked s2 p) (hI : InvT C s) : InvT C s2 := by
  obtain ⟨hinv, tfs, tds, htm⟩ := hI
  refine ⟨?_, tfs, tds, ht.trans htm⟩
  intro q hq hqC
  rw [hd] at hq
  rcases List.mem_cons.mp hq with hqp | hq2
  · subst hqp
    rcases hp with hp | hp
    · exact absurd hqC hp
    · exact hp
  · exact tracked_carry ht (hinv q hq2 hqC)

theorem invT_rename {C : List String} {s s2 : PState} {src dst : String}
    (hd : s2.st.disk = dst :: s.st.disk.filter (fun q => q ≠ src))
    (ht : s2.loc.temps = s.loc.temps) (hdst : dst ∉ C) (hI : InvT C s) :
    InvT C s2 := by
  obtain ⟨hinv, tfs, tds, htm⟩ := hI
  refine ⟨?_, tfs, tds, ht.trans htm⟩
  intro q hq hqC
  rw [hd] at hq
  rcases List.mem_cons.mp hq with hqp | hq2
  · subst hqp
    exact absurd hqC hdst
  · exact tracked_carry ht (hinv q (List.mem_filter.mp hq2).1 hqC)

theorem dtEq_of_fix {α : Type} {x : M α} (hs : ∀ s, (x s).2 = s) : DTEq x := by
  intro s r s' h
  have h2 := hs s
  rw [h] at h2
  have h3 : s' = s := h2
  rw [h3]
  exact ⟨rfl, rfl⟩

theorem dtEq_pure {α : Type} (a : α) : DTEq (pure a : M α) :=
  dtEq_of_fix fun _ => rfl

theorem dtEq_throwM {α : Type} (m : String) : DTEq (throwM m : M α) :=
  dtEq_of_fix fun _ => rfl

theorem dtEq_getS : DTEq getS := dtEq_of_fix fun _ => rfl

theorem dtEq_modifySt {f : St → St} (hf : ∀ st, (f st).disk = st.disk) :
    DTEq (modifySt f) := by
  intro s r s' h
  rw [run_modifySt] at h
  injection h with h1 h2
  rw [← h2]
  exact ⟨hf s.st, rfl⟩

theorem dtEq_emit (ev : Ev) : DTEq (emit ev) :=
  dtEq_modifySt fun _ => rfl

theorem dtEq_bind {α β : Type} {x : M α} {f : α → M β} (hx : DTEq x)
    (hf : ∀ a, DTEq (f a)) : DTEq (x >>= f) := by
  intro s r s' h
  rcases bind_cases h with ⟨e, s1, h1, hout⟩ | ⟨a, s1, h1, h2⟩
  · injection hout with ho1 ho2
    subst ho2
    exact hx s _ _ h1
  · obtain ⟨hd1, ht1⟩ := hx s _ _ h1
    obtain ⟨hd2, ht2⟩ := hf a s1 _ _ h2
    exact ⟨hd2.trans hd1, ht2.trans ht1⟩

theorem dtEq_tryCatch {α : Type} {body : M α} {handler : String → M α}
    (hb : DTEq body) (hh : ∀ e, DTEq (handler e)) :
    DTEq (tryCatchM body handler) := by
  intro s r s' h
  unfold tryCatchM at h
  rcases hbs : body s with ⟨rb, s1⟩
  rw [hbs] at h
  cases rb with
  | ok a =>
      have h' : ((Except.ok a : Except String α), s1) = (r, s') := h
      injection h' with h1 h2
      subst h2
      exact hb s _ _ hbs
  | error e =>
      obtain ⟨hd1, ht1⟩ := hb s _ _ hbs
      obtain ⟨hd2, ht2⟩ := hh e s1 _ _ h
      exact ⟨hd2.trans hd1, ht2.trans ht1⟩

theorem dtEq_sendText (t : String) : DTEq (send_text_to_slack t) := by
  unfold send_text_to_slack
  exact dtEq_emit _

theorem dtEq_slackGetUrls (ctx : Ctx) (ci : Nat) :
    ∀ l : List (String × String), DTEq (slackGetUrls ctx ci l) := by
  intro l
  induction l with
  | nil =>
      simp only [slackGetUrls]
      exact dtEq_pure _
  | cons hd2 tl ih =>
      obtain ⟨ft, fp⟩ := hd2
      simp only [slackGetUrls]
      refine dtEq_bind dtEq_getS fun s0 => ?_
      by_cases hfp : fp ∈ s0.st.disk
      · rw [if_pos hfp]
        refine dtEq_bind (dtEq_emit _) fun _ => ?_
        cases ctx.orc.slackUrlRes ci ft with
        | urlRaise msg => exact dtEq_throwM _
        | urlNotOk => exact dtEq_throwM _
        | urlOk => exact ih
      · rw [if_neg hfp]
        exact ih

theorem dtEq_slackPuts (ctx : Ctx) (ci : Nat) :
    ∀ l : List (String × String), DTEq (slackPuts ctx ci l) := by
  intro l
  induction l with
  | nil =>
      simp only [slackPuts]
      exact dtEq_pure _
  | cons hd2 tl ih =>
      obtain ⟨ft, fp⟩ := hd2
      simp only [slackPuts]
      refine dtEq_bind dtEq_getS fun s0 => ?_
      by_cases hfp : fp ∈ s0.st.disk
      · rw [if_pos hfp]
        refine dtEq_bind (dtEq_emit _) fun _ => ?_
        cases ctx.orc.slackPutRes ci ft with
        | putRaise msg => exact dtEq_throwM _
        | putCode c =>
            show DTEq (if c = 200 then slackPuts ctx ci tl
              else throwM (ft ++ " upload failed with status code"))
            by_cases hc : c = 200
            · rw [if_pos hc]
              exact ih
            · rw [if_neg hc]
              exact dtEq_throwM _
      · rw [if_neg hfp]
        exact ih

theorem dtEq_slackComplete (ctx : Ctx) (ci : Nat) :
    DTEq (slackComplete ctx ci) := by
  unfold slackComplete
  refine dtEq_bind (dtEq_emit _) fun _ => ?_
  cases ctx.orc.slackCompRes ci with
  | compRaise msg => exact dtEq_throwM _
  | compNotOk => exact dtEq_throwM _
  | compOk => exact dtEq_pure _

theorem dtEq_slackTryBody (ctx : Ctx) (fg : String) (audio tr : Option String) :
    DTEq (slackTryBody ctx fg audio tr) := by
  unfold slackTryBody
  refine dtEq_bind dtEq_getS fun s0 => ?_
  refine dtEq_bind (dtEq_modifySt fun _ => rfl) fun _ => ?_
  refine dtEq_bind (dtEq_slackGetUrls ctx _ _) fun _ => ?_
  refine dtEq_bind (dtEq_slackPuts ctx _ _) fun _ => ?_
  refine dtEq_bind (dtEq_slackComplete ctx _) fun _ => ?_
  exact dtEq_pure _

theorem dtEq_slackErrHandler (uuid e : String) : DTEq (slackErrHandler uuid e) := by
  unfold slackErrHandler
  refine dtEq_bind (dtEq_sendText _) fun _ => ?_
  exact dtEq_pure _

theorem dtEq_callGen (ctx : Ctx) (tOnly lf : Bool) (tf : Option String) :
    DTEq (callGen ctx tOnly lf tf) := by
  unfold callGen
  refine dtEq_bind dtEq_getS fun s0 => ?_
  refine dtEq_bind (dtEq_emit _) fun _ => ?_
  refine dtEq_bind (dtEq_modifySt fun _ => rfl) fun _ => ?_
  cases ctx.orc.genRes s0.st.genCalls with
  | genRaise msg => exact dtEq_throwM _
  | genOk v => exact dtEq_pure _

theorem dtEq_dictGet (v : Option String) (k : String) : DTEq (dictGet v k) := by
  cases v with
  | none => exact dtEq_throwM _
  | some x => exact dtEq_pure _

theorem dtEq_genAudioOf (r : GenOk) : DTEq (genAudioOf r) := by
  cases r with
  | gStr p => exact dtEq_pure _
  | gDict a t pr => exact dtEq_dictGet _ _

theorem dtEq_genTranscriptOf (r : GenOk) : DTEq (genTranscriptOf r) := by
  cases r with
  | gStr p => exact dtEq_pure _
  | gDict a t pr => exact dtEq_dictGet _ _

theorem dtEq_genPromptOf (r : GenOk) : DTEq (genPromptOf r) := by
  cases r with
  | gStr p => exact dtEq_pure _
  | gDict a t pr => exact dtEq_dictGet _ _

theorem dtEq_parsePrompt (ctx : Ctx) (pc : String) :
    DTEq (parsePromptDetails ctx pc) := by
  unfold parsePromptDetails
  cases ctx.orc.jsonLoadsPrompt pc with
  | none => exact dtEq_throwM _
  | some t => exact dtEq_pure _

theorem dtEq_callbackStep (ctx : Ctx) (inp : Inputs) :
    DTEq (callbackStep ctx inp) := by
  unfold callbackStep
  by_cases hc : inp.callback_url ≠ ""
  · rw [if_pos hc]
    cases ctx.orc.callbackPrep with
    | none => exact dtEq_emit _
    | some msg => exact dtEq_throwM _
  · rw [if_neg hc]
    exact dtEq_pure _

theorem presInv_of_dtEq {C : List String} {α : Type} {x : M α} (h : DTEq x) :
    PresInv C x := by
  intro s r s' hx hI
  obtain ⟨hd2, ht⟩ := h s r s' hx
  exact invT_carry hd2 ht hI

theorem presInv_bind {C : List String} {α β : Type} {x : M α} {f : α → M β}
    (hx : PresInv C x) (hf : ∀ a, PresInv C (f a)) : PresInv C (x >>= f) := by
  intro s r s' h hI
  rcases bind_cases h with ⟨e, s1, h1, hout⟩ | ⟨a, s1, h1, h2⟩
  · injection hout with ho1 ho2
    subst ho2
    exact hx s _ _ h1 hI
  · exact hf a s1 _ _ h2 (hx s _ _ h1 hI)

theorem presInv_tryCatch {C : List String} {α : Type} {body : M α}
    {handler : String → M α} (hb : PresInv C body)
    (hh : ∀ e, PresInv C (handler e)) : PresInv C (tryCatchM body handler) := by
  intro s r s' h hI
  unfold tryCatchM at h
  rcases hbs : body s with ⟨rb, s1⟩
  rw [hbs] at h
  cases rb with
  | ok a =>
      have h' : ((Except.ok a : Except String α), s1) = (r, s') := h
      injection h' with h1 h2
      subst h2
      exact hb s _ _ hbs hI
  | error e => exact hh e s1 _ _ h (hb s _ _ hbs hI)

theorem fsWrite_state (ctx : Ctx) (p : String) (s : PState) :
    (fsWrite ctx p s).2 = { s with st := { s.st with trace := s.st.trace ++ [Ev.evWrite p], disk := p :: s.st.disk } } := by
  unfold fsWrite
  cases ctx.orc.writeRes p with
  | none => rfl
  | some m => rfl

theorem presInv_fsWrite_nc {C : List String} {ctx : Ctx} {p : String}
    (hp : p ∉ C) : PresInv C (fsWrite ctx p) := by
  intro s r s' h hI
  have h3 := fsWrite_state ctx p s
  rw [h] at h3
  have h2 : s' = { s with st := { s.st with trace := s.st.trace ++ [Ev.evWrite p], disk := p :: s.st.disk } } := h3
  subst h2
  exact invT_write rfl rfl (Or.inl hp) hI

theorem presInv_fsWrite_tracked {C : List String} {ctx : Ctx} {p : String}
    (s : PState) (r : Except String Unit) (s' : PState)
    (h : fsWrite ctx p s = (r, s')) (hI : InvT C s) (htr : tracked s p) :
    InvT C s' := by
  have h3 := fsWrite_state ctx p s
  rw [h] at h3
  have h2 : s' = { s with st := { s.st with trace := s.st.trace ++ [Ev.evWrite p], disk := p :: s.st.disk } } := h3
  subst h2
  exact invT_write rfl rfl (Or.inr (tracked_carry rfl htr)) hI

theorem presInv_fsRename {C : List String} {ctx : Ctx} {src dst : String}
    (hdst : dst ∉ C) : PresInv C (fsRename ctx src dst) := by
  intro s r s' h hI
  unfold fsRename at h
  rw [bind_ok_step (run_emit (Ev.evRename src dst) s)] at h
  cases hr : ctx.orc.renameRes src dst with
  | some m =>
      rw [hr] at h
      have h' : ((Except.error m : Except String Unit),
          { s with st := { s.st with trace := s.st.trace ++ [Ev.evRename src dst] } }) = (r, s') := h
      injection h' with h1 h2
      subst h2
      exact invT_carry rfl rfl hI
  | none =>
      rw [hr] at h
      have h' : ((Except.ok () : Except String Unit),
          { s with st := { s.st with trace := s.st.trace ++ [Ev.evRename src dst], disk := dst :: s.st.disk.filter (fun q => q ≠ src) } }) = (r, s') := h
      injection h' with h1 h2
      subst h2
      exact invT_rename rfl rfl hdst hI

theorem pdfLoop_pres {C : List String} (ctx : Ctx) (dir : String) :
    ∀ (n i : Nat) (s : PState) (r : Except String (List String)) (s' : PState),
      pdfLoop ctx dir n i s = (r, s') → InvT C s → InvT C s' := by
  intro n
  induction n with
  | zero =>
      intro i s r s' h hI
      have h' : ((Except.ok ([] : List String) : Except String (List String)), s) = (r, s') := h
      injection h' with h1 h2
      subst h2
      exact hI
  | succ k ih =>
      intro i s r s' h hI
      obtain ⟨hinv, tfs, tds, htm⟩ := hI
      obtain ⟨⟨rid, mf, sv, tm⟩, st⟩ := s
      have htm2 : tm = some (tfs, tds) := htm
      subst htm2
      have h' : (fsWrite ctx (pdfPath dir i) >>= fun _ =>
          pdfLoop ctx dir k (i + 1) >>= fun rest =>
          pure (pdfPath dir i :: rest))
          ⟨⟨rid, mf, sv, some (tfs ++ [pdfPath dir i], tds)⟩, st⟩ = (r, s') := h
      have hIA : InvT C ⟨⟨rid, mf, sv, some (tfs ++ [pdfPath dir i], tds)⟩, st⟩ := by
        refine ⟨?_, tfs ++ [pdfPath dir i], tds, rfl⟩
        intro q hq hqC
        obtain ⟨a, b, hab, hm⟩ := hinv q hq hqC
        have hab2 : (some (tfs, tds) : Option (List String × List String)) = some (a, b) := hab
        injection hab2 with hab3
        injection hab3 with ha hb
        subst ha
        subst hb
        exact ⟨tfs ++ [pdfPath dir i], tds, rfl, hm.imp (fun hx => List.mem_append_left _ hx) id⟩
      have htrA : tracked ⟨⟨rid, mf, sv, some (tfs ++ [pdfPath dir i], tds)⟩, st⟩ (pdfPath dir i) :=
        ⟨tfs ++ [pdfPath dir i], tds, rfl, Or.inl (by simp)⟩
      rcases bind_cases h' with ⟨e, s1, h1, hout⟩ | ⟨a, s1, h1, h2⟩
      · injection hout with ho1 ho2
        subst ho2
        exact presInv_fsWrite_tracked _ _ _ h1 hIA htrA
      · have hI1 := presInv_fsWrite_tracked _ _ _ h1 hIA htrA
        rcases bind_cases h2 with ⟨e2, s2, h3, hout⟩ | ⟨rest3, s2, h3, h4⟩
        · injection hout with ho1 ho2
          subst ho2
          exact ih (i + 1) s1 _ _ h3 hI1
        · have hI2 := ih (i + 1) s1 _ _ h3 hI1
          rw [run_pure] at h4
          injection h4 with h5 h6
          subst h6
          exact hI2

theorem imgLoop_pres {C : List String} (ctx : Ctx) (dir : String) :
    ∀ (l : List ImgFile) (i : Nat) (s : PState) (r : Except String (List String)) (s' : PState),
      imgLoop ctx dir l i s = (r, s') → InvT C s → InvT C s' := by
  intro l
  induction l with
  | nil =>
      intro i s r s' h hI
      have h' : ((Except.ok ([] : List String) : Except String (List String)), s) = (r, s') := h
      injection h' with h1 h2
      subst h2
      exact hI
  | cons f rest ih =>
      intro i s r s' h hI
      obtain ⟨hinv, tfs, tds, htm⟩ := hI
      obtain ⟨⟨rid, mf, sv, tm⟩, st⟩ := s
      have htm2 : tm = some (tfs, tds) := htm
      subst htm2
      have h' : (fsWrite ctx (imgPath dir f i) >>= fun _ =>
          imgLoop ctx dir rest (i + 1) >>= fun rest2 =>
          pure (imgPath dir f i :: rest2))
          ⟨⟨rid, mf, sv, some (tfs ++ [imgPath dir f i], tds)⟩, st⟩ = (r, s') := h
      have hIA : InvT C ⟨⟨rid, mf, sv, some (tfs ++ [imgPath dir f i], tds)⟩, st⟩ := by
        refine ⟨?_, tfs ++ [imgPath dir f i], tds, rfl⟩
        intro q hq hqC
        obtain ⟨a, b, hab, hm⟩ := hinv q hq hqC
        have hab2 : (some (tfs, tds) : Option (List String × List String)) = some (a, b) := hab
        injection hab2 with hab3
        injection hab3 with ha hb
        subst ha
        subst hb
        exact ⟨tfs ++ [imgPath dir f i], tds, rfl, hm.imp (fun hx => List.mem_append_left _ hx) id⟩
      have htrA : tracked ⟨⟨rid, mf, sv, some (tfs ++ [imgPath dir f i], tds)⟩, st⟩ (imgPath dir f i) :=
        ⟨tfs ++ [imgPath dir f i], tds, rfl, Or.inl (by simp)⟩
      rcases bind_cases h' with ⟨e, s1, h1, hout⟩ | ⟨a, s1, h1, h2⟩
      · injection hout with ho1 ho2
        subst ho2
        exact presInv_fsWrite_tracked _ _ _ h1 hIA htrA
      · have hI1 := presInv_fsWrite_tracked _ _ _ h1 hIA htrA
        rcases bind_cases h2 with ⟨e2, s2, h3, hout⟩ | ⟨rest3, s2, h3, h4⟩
        · injection hout with ho1 ho2
          subst ho2
          exact ih (i + 1) s1 _ _ h3 hI1
        · have hI2 := ih (i + 1) s1 _ _ h3 hI1
          rw [run_pure] at h4
          injection h4 with h5 h6
          subst h6
          exact hI2

theorem presInv_materializePdfs {C : List String} (ctx : Ctx) (inp : Inputs)
    (urls0 : List String) : PresInv C (materializePdfs ctx inp urls0) := by
  intro s r s' h hI
  unfold materializePdfs at h
  rcases hpf : inp.pdf_files with _ | pdfs
  · rw [hpf] at h
    have h' : (pure urls0 : M (List String)) s = (r, s') := h
    rw [run_pure] at h'
    injection h' with h1 h2
    subst h2
    exact hI
  · rw [hpf] at h
    have h2 : (if pdfs.length > 0 then (do
        fsMkdtemp ctx.orc.mkdtempPdf
        addTempDir ctx.orc.mkdtempPdf
        let ps ← pdfLoop ctx ctx.orc.mkdtempPdf pdfs.length 0
        pure (urls0 ++ ps)) else pure urls0 : M (List String)) s = (r, s') := h
    by_cases hlen : pdfs.length > 0
    · rw [if_pos hlen] at h2
      obtain ⟨hinv, tfs, tds, htm⟩ := hI
      obtain ⟨⟨rid, mf, sv, tm⟩, ⟨dsk, tra, gc, sc⟩⟩ := s
      have htm2 : tm = some (tfs, tds) := htm
      subst htm2
      have h3 : (pdfLoop ctx ctx.orc.mkdtempPdf pdfs.length 0 >>= fun ps =>
          pure (urls0 ++ ps))
          ⟨⟨rid, mf, sv, some (tfs, tds ++ [ctx.orc.mkdtempPdf])⟩,
            ⟨ctx.orc.mkdtempPdf :: dsk, tra ++ [Ev.evMkdtemp ctx.orc.mkdtempPdf], gc, sc⟩⟩ = (r, s') := h2
      have hI2 : InvT C ⟨⟨rid, mf, sv, some (tfs, tds ++ [ctx.orc.mkdtempPdf])⟩,
          ⟨ctx.orc.mkdtempPdf :: dsk, tra ++ [Ev.evMkdtemp ctx.orc.mkdtempPdf], gc, sc⟩⟩ := by
        refine ⟨?_, tfs, tds ++ [ctx.orc.mkdtempPdf], rfl⟩
        intro q hq hqC
        rcases List.mem_cons.mp (show q ∈ ctx.orc.mkdtempPdf :: dsk from hq) with hqd | hq2
        · subst hqd
          exact ⟨tfs, tds ++ [ctx.orc.mkdtempPdf], rfl, Or.inr (by simp)⟩
        · obtain ⟨a, b, hab, hm⟩ := hinv q hq2 hqC
          have hab2 : (some (tfs, tds) : Option (List String × List String)) = some (a, b) := hab
          injection hab2 with hab3
          injection hab3 with ha hb
          subst ha
          subst hb
          exact ⟨tfs, tds ++ [ctx.orc.mkdtempPdf], rfl, hm.imp id (fun hx => List.mem_append_left _ hx)⟩
      rcases bind_cases h3 with ⟨e, s1, h4, hout⟩ | ⟨ps, s1, h4, h5⟩
      · injection hout with ho1 ho2
        subst ho2
        exact pdfLoop_pres ctx _ _ _ _ _ _ h4 hI2
      · have hI3 := pdfLoop_pres ctx _ _ _ _ _ _ h4 hI2
        rw [run_pure] at h5
        injection h5 with h6 h7
        subst h7
        exact hI3
    · rw [if_neg hlen] at h2
      rw [run_pure] at h2
      injection h2 with h1 h2b
      subst h2b
      exact hI

theorem presInv_materializeImgs {C : List String} (ctx : Ctx) (inp : Inputs) :
    PresInv C (materializeImgs ctx inp) := by
  intro s r s' h hI
  unfold materializeImgs at h
  rcases hpf : inp.image_files with _ | imgs
  · rw [hpf] at h
    have h' : (pure ([] : List String) : M (List String)) s = (r, s') := h
    rw [run_pure] at h'
    injection h' with h1 h2
    subst h2
    exact hI
  · rw [hpf] at h
    have h2 : (if imgs.length > 0 then (do
        fsMkdtemp ctx.orc.mkdtempImg
        addTempDir ctx.orc.mkdtempImg
        imgLoop ctx ctx.orc.mkdtempImg imgs 0) else pure [] : M (List String)) s = (r, s') := h
    by_cases hlen : imgs.length > 0
    · rw [if_pos hlen] at h2
      obtain ⟨hinv, tfs, tds, htm⟩ := hI
      obtain ⟨⟨rid, mf, sv, tm⟩, ⟨dsk, tra, gc, sc⟩⟩ := s
      have htm2 : tm = some (tfs, tds) := htm
      subst htm2
      have h3 : imgLoop ctx ctx.orc.mkdtempImg imgs 0
          ⟨⟨rid, mf, sv, some (tfs, tds ++ [ctx.orc.mkdtempImg])⟩,
            ⟨ctx.orc.mkdtempImg :: dsk, tra ++ [Ev.evMkdtemp ctx.orc.mkdtempImg], gc, sc⟩⟩ = (r, s') := h2
      have hI2 : InvT C ⟨⟨rid, mf, sv, some (tfs, tds ++ [ctx.orc.mkdtempImg])⟩,
          ⟨ctx.orc.mkdtempImg :: dsk, tra ++ [Ev.evMkdtemp ctx.orc.mkdtempImg], gc, sc⟩⟩ := by
        refine ⟨?_, tfs, tds ++ [ctx.orc.mkdtempImg], rfl⟩
        intro q hq hqC
        rcases List.mem_cons.mp (show q ∈ ctx.orc.mkdtempImg :: dsk from hq) with hqd | hq2
        · subst hqd
          exact ⟨tfs, tds ++ [ctx.orc.mkdtempImg], rfl, Or.inr (by simp)⟩
        · obtain ⟨a, b, hab, hm⟩ := hinv q hq2 hqC
          have hab2 : (some (tfs, tds) : Option (List String × List String)) = some (a, b) := hab
          injection hab2 with hab3
          injection hab3 with ha hb
          subst ha
          subst hb
          exact ⟨tfs, tds ++ [ctx.orc.mkdtempImg], rfl, hm.imp id (fun hx => List.mem_append_left _ hx)⟩
      exact imgLoop_pres ctx _ _ _ _ _ _ h3 hI2
    · rw [if_neg hlen] at h2
      rw [run_pure] at h2
      injection h2 with h1 h2b
      subst h2b
      exact hI

theorem presInv_sendFiles {C : List String} (ctx : Ctx) (uuid fg : String)
    (audio tr : Option String) (hp : inputParamsPath fg ∉ C) :
    PresInv C (send_files_to_slack ctx uuid fg audio tr) := by
  unfold send_files_to_slack
  refine presInv_bind (presInv_of_dtEq (dtEq_emit _)) fun _ => ?_
  refine presInv_bind (presInv_fsWrite_nc hp) fun _ => ?_
  exact presInv_tryCatch (presInv_of_dtEq (dtEq_slackTryBody ctx fg audio tr))
    fun e => presInv_of_dtEq (dtEq_slackErrHandler uuid e)

theorem presInv_branchRun {C : List String} (ctx : Ctx) (inp : Inputs)
    (m : MockMode) (fg : String) (htp : transcriptPathOf fg ∉ C)
    (hap : audioPathOf fg ∉ C) (hpp : promptPathOf fg ∉ C) :
    PresInv C (branchRun ctx inp m fg) := by
  unfold branchRun
  cases dispatch m with
  | bT2V =>
      refine presInv_bind (presInv_fsWrite_nc htp) fun _ => ?_
      refine presInv_bind (presInv_of_dtEq (dtEq_callGen ctx _ _ _)) fun r => ?_
      refine presInv_bind (presInv_of_dtEq (dtEq_genAudioOf r)) fun _ => ?_
      exact presInv_of_dtEq (dtEq_pure _)
  | bYes => exact presInv_of_dtEq (dtEq_pure _)
  | bTranscriptNo =>
      refine presInv_bind (presInv_of_dtEq (dtEq_callGen ctx _ _ _)) fun r => ?_
      refine presInv_bind (presInv_of_dtEq (dtEq_genTranscriptOf r)) fun tf0 => ?_
      refine presInv_bind (presInv_fsRename htp) fun _ => ?_
      by_cases hm : m = MockMode.Transcript
      · rw [if_pos hm]
        exact presInv_of_dtEq (dtEq_pure _)
      · rw [if_neg hm]
        refine presInv_bind (presInv_of_dtEq (dtEq_callGen ctx _ _ _)) fun r2 => ?_
        refine presInv_bind (presInv_of_dtEq (dtEq_genAudioOf r2)) fun audio => ?_
        refine presInv_bind (presInv_fsRename hap) fun _ => ?_
        exact presInv_of_dtEq (dtEq_pure _)
  | bPromptOnly =>
      refine presInv_bind (presInv_of_dtEq (dtEq_callGen ctx _ _ _)) fun r => ?_
      refine presInv_bind (presInv_of_dtEq (dtEq_genPromptOf r)) fun pc => ?_
      refine presInv_bind (presInv_of_dtEq (dtEq_parsePrompt ctx pc)) fun _ => ?_
      refine presInv_bind (presInv_fsWrite_nc hpp) fun _ => ?_
      exact presInv_of_dtEq (dtEq_pure _)
  | bNone => exact presInv_of_dtEq (dtEq_pure _)

theorem fsRemove_run (p : String) (s : PState) :
    ∃ s2, fsRemove p s = (Except.ok (), s2) ∧ s2.loc = s.loc ∧
      ∀ q, (q ∈ s2.st.disk ↔ q ∈ s.st.disk ∧ q ≠ p) := by
  by_cases hp : p ∈ s.st.disk
  · refine ⟨{ s with st := { s.st with disk := s.st.disk.filter (fun q => q ≠ p) } }, ?_, rfl, ?_⟩
    · unfold fsRemove
      rw [bind_ok_step (run_getS s)]
      rw [if_pos hp]
      rfl
    · intro q
      simp [List.mem_filter]
  · refine ⟨s, ?_, rfl, ?_⟩
    · unfold fsRemove
      rw [bind_ok_step (run_getS s)]
      rw [if_neg hp]
      rfl
    · intro q
      constructor
      · intro hq
        exact ⟨hq, fun he => hp (he ▸ hq)⟩
      · intro hq
        exact hq.1

theorem remFiles_spec : ∀ (l : List String) (s : PState),
    ∃ s2, remFiles l s = (Except.ok (), s2) ∧ s2.loc = s.loc ∧
      ∀ q, (q ∈ s2.st.disk ↔ q ∈ s.st.disk ∧ q ∉ l) := by
  intro l
  induction l with
  | nil =>
      intro s
      refine ⟨s, rfl, rfl, ?_⟩
      intro q
      simp
  | cons p rest ih =>
      intro s
      obtain ⟨s1, h1, hl1, hd1⟩ := fsRemove_run p s
      obtain ⟨s2, h2, hl2, hd2⟩ := ih s1
      refine ⟨s2, ?_, hl2.trans hl1, ?_⟩
      · simp only [remFiles]
        rw [bind_ok_step h1]
        exact h2
      · intro q
        rw [hd2 q, hd1 q]
        simp only [List.mem_cons]
        constructor
        · rintro ⟨⟨hq, hne⟩, hnr⟩
          exact ⟨hq, fun hc => hc.elim hne hnr⟩
        · rintro ⟨hq, hn⟩
          exact ⟨⟨hq, fun he => hn (Or.inl he)⟩, fun hr => hn (Or.inr hr)⟩

theorem cleanup_spec {C : List String} {s : PState} {r : Except String Unit}
    {s' : PState} (hI : InvT C s) (h : cleanupTemps s = (r, s')) :
    r = Except.ok () ∧ NoC C s' := by
  obtain ⟨hinv, tfs, tds, htm⟩ := hI
  obtain ⟨⟨rid, mf, sv, tm⟩, st⟩ := s
  have htm2 : tm = some (tfs, tds) := htm
  subst htm2
  have h' : (remFiles tfs >>= fun _ => remFiles tds)
      ⟨⟨rid, mf, sv, some (tfs, tds)⟩, st⟩ = (r, s') := h
  obtain ⟨s1, h1, hl1, hd1⟩ := remFiles_spec tfs ⟨⟨rid, mf, sv, some (tfs, tds)⟩, st⟩
  rw [bind_ok_step h1] at h'
  obtain ⟨s2, h2, hl2, hd2⟩ := remFiles_spec tds s1
  rw [h2] at h'
  injection h' with hr hs
  subst hs
  refine ⟨hr.symm, ?_⟩
  intro q hq hqC
  have hq2 := (hd2 q).mp hq
  have hq1 := (hd1 q).mp hq2.1
  obtain ⟨a, b, hab, hm⟩ := hinv q hq1.1 hqC
  have hab2 : (some (tfs, tds) : Option (List String × List String)) = some (a, b) := hab
  injection hab2 with hab3
  injection hab3 with ha hb
  subst ha
  subst hb
  rcases hm with hm | hm
  · exact hq1.2 hm
  · exact hq2.2 hm

theorem presNoC_of_dtEq {C : List String} {α : Type} {x : M α} (h : DTEq x) :
    PresNoC C x := by
  intro s r s' hx hn
  obtain ⟨hd2, -⟩ := h s r s' hx
  intro q hq
  rw [hd2] at hq
  exact hn q hq

theorem presNoC_bind {C : List String} {α β : Type} {x : M α} {f : α → M β}
    (hx : PresNoC C x) (hf : ∀ a, PresNoC C (f a)) : PresNoC C (x >>= f) := by
  intro s r s' h hn
  rcases bind_cases h with ⟨e, s1, h1, hout⟩ | ⟨a, s1, h1, h2⟩
  · injection hout with ho1 ho2
    subst ho2
    exact hx s _ _ h1 hn
  · exact hf a s1 _ _ h2 (hx s _ _ h1 hn)

theorem presNoC_tryCatch {C : List String} {α : Type} {body : M α}
    {handler : String → M α} (hb : PresNoC C body)
    (hh : ∀ e, PresNoC C (handler e)) : PresNoC C (tryCatchM body handler) := by
  intro s r s' h hn
  unfold tryCatchM at h
  rcases hbs : body s with ⟨rb, s1⟩
  rw [hbs] at h
  cases rb with
  | ok a =>
      have h' : ((Except.ok a : Except String α), s1) = (r, s') := h
      injection h' with h1 h2
      subst h2
      exact hb s _ _ hbs hn
  | error e => exact hh e s1 _ _ h (hb s _ _ hbs hn)

theorem presNoC_fsWrite {C : List String} {ctx : Ctx} {p : String}
    (hp : p ∉ C) : PresNoC C (fsWrite ctx p) := by
  intro s r s' h hn
  have h3 := fsWrite_state ctx p s
  rw [h] at h3
  have h2 : s' = { s with st := { s.st with trace := s.st.trace ++ [Ev.evWrite p], disk := p :: s.st.disk } } := h3
  subst h2
  intro q hq
  rcases List.mem_cons.mp (show q ∈ p :: s.st.disk from hq) with hqp | hq2
  · subst hqp
    exact hp
  · exact hn q hq2

theorem presNoC_sendFiles {C : List String} (ctx : Ctx) (uuid fg : String)
    (audio tr : Option String) (hp : inputParamsPath fg ∉ C) :
    PresNoC C (send_files_to_slack ctx uuid fg audio tr) := by
  unfold send_files_to_slack
  refine presNoC_bind (presNoC_of_dtEq (dtEq_emit _)) fun _ => ?_
  refine presNoC_bind (presNoC_fsWrite hp) fun _ => ?_
  exact presNoC_tryCatch (presNoC_of_dtEq (dtEq_slackTryBody ctx fg audio tr))
    fun e => presNoC_of_dtEq (dtEq_slackErrHandler uuid e)

theorem logParams_state (inp : Inputs) (s : PState) :
    (logParams inp s).2 = s := by
  unfold logParams
  by_cases hb : hasBinaryUpload inp = true
  · rw [if_pos hb]
    rfl
  · rw [if_neg hb]
    rfl

theorem setGemini_state (ctx : Ctx) (inp : Inputs) (s : PState) :
    (setGeminiEnv ctx inp s).2 = s := by
  unfold setGeminiEnv
  cases get_api_key ctx.env.gemini inp.gemini_key with
  | none => rfl
  | some k => rfl

theorem checkTts_state (ctx : Ctx) (inp : Inputs) (s : PState) :
    (checkTtsKeys ctx inp s).2 = s := by
  unfold checkTtsKeys
  by_cases h1 : inp.tts_model = "openai" ∧ inp.openai_key = "" ∧
      (ctx.env.openai = none ∨ ctx.env.openai = some "")
  · rw [if_pos h1]
    rfl
  · rw [if_neg h1]
    by_cases h2 : inp.tts_model = "elevenlabs" ∧ inp.elevenlabs_key = "" ∧
        (ctx.env.elevenlabs = none ∨ ctx.env.elevenlabs = some "")
    · rw [if_pos h2]
      rfl
    · rw [if_neg h2]
      rfl

theorem modifyLoc_cases {f : PyLocals → PyLocals} {s : PState}
    {r : Except String Unit} {s' : PState} (h : modifyLoc f s = (r, s')) :
    r = Except.ok () ∧ s' = { s with loc := f s.loc } := by
  rw [run_modifyLoc] at h
  injection h with h1 h2
  exact ⟨h1.symm, h2.symm⟩

theorem processBody_c2 (ctx : Ctx) (inp : Inputs) (st0 : St)
    (hsep : C2Sep ctx.orc inp st0) :
    ∀ r s', processBody ctx inp { loc := locals0, st := st0 } = (r, s') →
      C2Inv (tempCandidates ctx.orc inp) s' ∧
      (∀ v, r = Except.ok v → NoC (tempCandidates ctx.orc inp) s') := by
  intro r s' h
  have hnc0 : NoC (tempCandidates ctx.orc inp) { loc := locals0, st := st0 } :=
    fun q hq hqC => hsep.1 q hqC hq
  unfold processBody at h
  rcases bind_cases h with ⟨e0, s0a, h0, hout0⟩ | ⟨a0, s0a, h0, h⟩
  · have hs0 : s0a = { loc := locals0, st := st0 } := by
      have h3 := logParams_state inp { loc := locals0, st := st0 }
      rw [h0] at h3
      exact h3
    injection hout0 with ho1 ho2
    subst ho2
    subst hs0
    exact ⟨c2inv_of_noC hnc0, fun v hv => Except.noConfusion (ho1.symm.trans hv)⟩
  · have hs0 : s0a = { loc := locals0, st := st0 } := by
      have h3 := logParams_state inp { loc := locals0, st := st0 }
      rw [h0] at h3
      exact h3
    subst hs0
    rcases bind_cases h with ⟨e1, s1, h1, hout⟩ | ⟨a1, s1, h1, h⟩
    · have hs1 : s1 = { loc := locals0, st := st0 } := by
        have h3 := setGemini_state ctx inp { loc := locals0, st := st0 }
        rw [h1] at h3
        exact h3
      injection hout with ho1 ho2
      subst ho2
      subst hs1
      exact ⟨c2inv_of_noC hnc0, fun v hv => Except.noConfusion (ho1.symm.trans hv)⟩
    · have hs1 : s1 = { loc := locals0, st := st0 } := by
        have h3 := setGemini_state ctx inp { loc := locals0, st := st0 }
        rw [h1] at h3
        exact h3
      subst hs1
      rcases bind_cases h with ⟨e2, s2, h2, hout⟩ | ⟨a2, s2, h2, h⟩
      · have hs2 : s2 = { loc := locals0, st := st0 } := by
          have h3 := checkTts_state ctx inp { loc := locals0, st := st0 }
          rw [h2] at h3
          exact h3
        injection hout with ho1 ho2
        subst ho2
        subst hs2
        exact ⟨c2inv_of_noC hnc0, fun v hv => Except.noConfusion (ho1.symm.trans hv)⟩
      · have hs2 : s2 = { loc := locals0, st := st0 } := by
          have h3 := checkTts_state ctx inp { loc := locals0, st := st0 }
          rw [h2] at h3
          exact h3
        subst hs2
        rcases bind_cases h with ⟨e3, s3, h3, hout⟩ | ⟨a3, s3, h3, h⟩
        · exact Except.noConfusion (modifyLoc_cases h3).1
        · have hs3 := (modifyLoc_cases h3).2
          subst hs3
          rcases bind_cases h with ⟨e4, s4, h4, hout⟩ | ⟨a4, s4, h4, h⟩
          · exact Except.noConfusion (modifyLoc_cases h4).1
          · have hs4 := (modifyLoc_cases h4).2
            subst hs4
            rcases bind_cases h with ⟨e5, s5, h5, hout⟩ | ⟨a5, s5, h5, h⟩
            · exact Except.noConfusion (modifyLoc_cases h5).1
            · have hs5 := (modifyLoc_cases h5).2
              subst hs5
              have hIC : InvT (tempCandidates ctx.orc inp)
                  (⟨⟨some (if inp.request_id = "" then ctx.orc.fileGroup else inp.request_id),
                    none, true, some ([], [])⟩, st0⟩ : PState) := by
                refine ⟨?_, [], [], rfl⟩
                intro q hq hqC
                exact absurd hq (hsep.1 q hqC)
              rcases bind_cases h with ⟨e6, s6, h6, hout⟩ | ⟨urls, s6, h6, h⟩
              · injection hout with ho1 ho2
                subst ho2
                exact ⟨(presInv_materializePdfs ctx inp _ _ _ _ h6 hIC).1,
                  fun v hv => Except.noConfusion (ho1.symm.trans hv)⟩
              · have hI6 := presInv_materializePdfs ctx inp _ _ _ _ h6 hIC
                rcases bind_cases h with ⟨e7, s7, h7, hout⟩ | ⟨imgsv, s7, h7, h⟩
                · injection hout with ho1 ho2
                  subst ho2
                  exact ⟨(presInv_materializeImgs ctx inp _ _ _ h7 hI6).1,
                    fun v hv => Except.noConfusion (ho1.symm.trans hv)⟩
                · have hI7 := presInv_materializeImgs ctx inp _ _ _ h7 hI6
                  rcases bind_cases h with ⟨e8, s8, h8, hout⟩ | ⟨a8, s8, h8, h⟩
                  · exact Except.noConfusion (modifyLoc_cases h8).1
                  · have hs8 := (modifyLoc_cases h8).2
                    subst hs8
                    have hI8 : InvT (tempCandidates ctx.orc inp)
                        { s7 with loc := { s7.loc with mock_flag := some (mockFlagOf (parse_is_mock inp.is_mock)) } } :=
                      invT_carry rfl rfl hI7
                    have hpIn : inputParamsPath ctx.orc.fileGroup ∉ tempCandidates ctx.orc inp :=
                      hsep.2 (inputParamsPath ctx.orc.fileGroup) (by simp [publicOutPaths])
                    rcases bind_cases h with ⟨e9, s9, h9, hout⟩ | ⟨a9, s9, h9, h⟩
                    · injection hout with ho1 ho2
                      subst ho2
                      exact ⟨(presInv_sendFiles ctx _ _ none none hpIn _ _ _ h9 hI8).1,
                        fun v hv => Except.noConfusion (ho1.symm.trans hv)⟩
                    · have hI9 := presInv_sendFiles ctx _ _ none none hpIn _ _ _ h9 hI8
                      have htp := hsep.2 (transcriptPathOf ctx.orc.fileGroup)
                        (by simp [publicOutPaths])
                      have hap := hsep.2 (audioPathOf ctx.orc.fileGroup)
                        (by simp [publicOutPaths])
                      have hpp := hsep.2 (promptPathOf ctx.orc.fileGroup)
                        (by simp [publicOutPaths])
                      rcases bind_cases h with ⟨e10, s10, h10, hout⟩ | ⟨out, s10, h10, h⟩
                      · injection hout with ho1 ho2
                        subst ho2
                        exact ⟨(presInv_branchRun ctx inp _ _ htp hap hpp _ _ _ h10 hI9).1,
                          fun v hv => Except.noConfusion (ho1.symm.trans hv)⟩
                      · have hI10 := presInv_branchRun ctx inp _ _ htp hap hpp _ _ _ h10 hI9
                        unfold finishRun at h
                        rcases bind_cases h with ⟨e11, s11, h11, hout⟩ | ⟨a11, s11, h11, h⟩
                        · exact Except.noConfusion (cleanup_spec hI10 h11).1
                        · have hnc11 := (cleanup_spec hI10 h11).2
                          rcases bind_cases h with ⟨e12, s12, h12, hout⟩ | ⟨a12, s12, h12, h⟩
                          · injection hout with ho1 ho2
                            subst ho2
                            exact ⟨c2inv_of_noC
                              (presNoC_sendFiles ctx _ _ _ _ hpIn _ _ _ h12 hnc11),
                              fun v hv => Except.noConfusion (ho1.symm.trans hv)⟩
                          · have hnc12 := presNoC_sendFiles ctx _ _ _ _ hpIn _ _ _ h12 hnc11
                            rcases bind_cases h with ⟨e13, s13, h13, hout⟩ | ⟨a13, s13, h13, h⟩
                            · injection hout with ho1 ho2
                              subst ho2
                              exact ⟨c2inv_of_noC (presNoC_of_dtEq
                                (dtEq_callbackStep ctx inp) _ _ _ h13 hnc12),
                                fun v hv => Except.noConfusion (ho1.symm.trans hv)⟩
                            · have hnc13 := presNoC_of_dtEq
                                (dtEq_callbackStep ctx inp) _ _ _ h13 hnc12
                              rw [run_pure] at h
                              injection h with h14 h15
                              subst h15
                              exact ⟨c2inv_of_noC hnc13, fun v hv => hnc13⟩

/-- Claim C2: under the separation hypothesis (the fresh temp locations do
not already exist and are distinct from the public output paths), whenever
process_inputs returns — a normal result or the handler's error string —
no temporary PDF/image file or temp directory remains on disk. -/
theorem claim_C2_temp_cleanup (ctx : Ctx) (inp : Inputs) (st0 : St)
    (hsep : C2Sep ctx.orc inp st0) :
    ∀ v s', processInputs ctx inp st0 = (Except.ok v, s') →
      ∀ p ∈ tempCandidates ctx.orc inp, p ∉ s'.st.disk := by
  intro v s' h p hpC
  unfold processInputs at h
  rcases hb : processBody ctx inp { loc := locals0, st := st0 } with ⟨rb, sb⟩
  rw [hb] at h
  obtain ⟨hinv, hok⟩ := processBody_c2 ctx inp st0 hsep rb sb hb
  cases rb with
  | ok rr =>
      have h' : ((Except.ok rr : Except String PyRet), sb) = (Except.ok v, s') := h
      injection h' with h1 h2
      subst h2
      intro hpd
      exact hok rr rfl p hpd hpC
  | error e =>
      have h' : exceptHandler e sb = (Except.ok v, s') := h
      rcases exceptHandler_spec e sb with
        ⟨m, s2, heq, -, -⟩ | ⟨t, tfs, tds, htm, heq⟩
      · rw [heq] at h'
        injection h' with h1 h2
        exact Except.noConfusion h1
      · rw [heq] at h'
        injection h' with h1 h2
        subst h2
        intro hpd
        have hpd2 : p ∈ removeAll (removeAll sb.st.disk tfs) tds := hpd
        rw [mem_removeAll] at hpd2
        obtain ⟨hpd3, hptds⟩ := hpd2
        rw [mem_removeAll] at hpd3
        obtain ⟨hpd4, hptfs⟩ := hpd3
        obtain ⟨a, b, hab, hm⟩ := hinv p hpd4 hpC
        have hab2 : (some (a, b) : Option (List String × List String)) =
            some (tfs, tds) := hab.symm.trans htm
        injection hab2 with hab3
        injection hab3 with ha hb2
        subst ha
        subst hb2
        rcases hm with hm | hm
        · exact hptfs hm
        · exact hptds hm

/-- Witness for C2: the concrete Yes-mode run satisfies the separation
hypothesis and the cleanup theorem applies to it.  With the line-113
parameter logging modelled, a request that carries an upload raises on
the bytes before the materialisation phase, so every run that returns has
an empty temp-candidate set; the theorem is exercised on such a run. -/
theorem claim_C2_temp_cleanup_witness :
    C2Sep ctxW.orc inpBase st0Empty ∧
    tempCandidates ctxW.orc inpBase = [] ∧
    processInputs ctxW inpBase st0Empty =
      (Except.ok (PyRet.pyStr cannedAudio), wSYesF) := by
  have hsep : C2Sep ctxW.orc inpBase st0Empty := by
    unfold C2Sep
    decide
  have happ := claim_C2_temp_cleanup ctxW inpBase st0Empty hsep
    (PyRet.pyStr cannedAudio) wSYesF (processInputs_eq_ok wRunYes)
  exact ⟨hsep, rfl, processInputs_eq_ok wRunYes⟩

end PodcastfyApp
